import Mathlib

/-!
Verification of the Sudoku CLI core (validator, solver, solution counter,
PRNG, generator) against its natural-language specification.

The repository contains several slightly divergent copies of the core
modules.  Each copy is embedded in its own namespace:

* `Validator` — `src/core/validator.ts` (the canonical validator, whose
  `findDuplicates` sorts the duplicate values ascending);
* `Sud3`      — the validator copy shipped with the backlog pack
  (`unnamed/part_002`, "SUD-3"), whose `findDuplicates` does not sort and
  which additionally exports `isValidPlacement` (excluding the target cell);
* `Solver`    — `src/core/solver.ts` (validates first, has a private
  `isValidPlacement` that does *not* exclude the target cell, re-validates
  the solved grid before returning success);
* `Sud4`      — the solver copy ("SUD-4", tail of `src/commands/generate.ts`)
  with `countSolutions`, using `Sud3.isValidPlacement`;
* `PrngJs`    — the compiled LCG PRNG of `unnamed/part_001`;
* `CorePrng`  — the PRNG used by `src/core/generator.ts` (`src/core/prng.ts`
  is not part of the sources; modelled from the spec);
* `Generator` — `src/core/generator.ts` ("SUD-5").

Grids are embedded as total functions `Fin 9 → Fin 9 → Nat`; the TypeScript
cell type `CellValue = 0 | 1 | ... | 9` is recorded by the predicate
`inRange` where a statement needs it.  The backtracking search, which in the
source recurses without an explicit bound, is embedded with a fuel
parameter; every recursive call fills one empty cell, so fuel `82` (one more
than the number of cells) makes the fuel-exhaustion branch unreachable.
-/

/-- A 9×9 Sudoku grid; cell value `0` is an empty cell, `1`–`9` are digits. -/
abbrev Grid := Fin 9 → Fin 9 → Nat

/-- Functional update of one cell (models `grid[row][col] = value`). -/
def setCell (g : Grid) (r c : Fin 9) (v : Nat) : Grid :=
  fun r' c' => if r' = r then (if c' = c then v else g r' c') else g r' c'

/-- Build a grid from a list of rows (used only for concrete test grids). -/
def ofRows (rows : List (List Nat)) : Grid :=
  fun r c => (rows.getD r.val []).getD c.val 0

/-- All cells are filled (non-zero). -/
def complete (g : Grid) : Prop := ∀ r c : Fin 9, g r c ≠ 0

/-- All cell values are legal `CellValue`s (`0`–`9`). -/
def inRange (g : Grid) : Prop := ∀ r c : Fin 9, g r c ≤ 9

/-- `g'` agrees with `g` on every cell that is non-empty in `g`. -/
def extendsGrid (g g' : Grid) : Prop := ∀ r c : Fin 9, g r c ≠ 0 → g' r c = g r c

/-- The box index (0–8, row-major) owning cell `(r, c)`. -/
def boxIdx (r c : Fin 9) : Nat := r.val / 3 * 3 + c.val / 3

/-- No row contains a repeated non-empty digit. -/
def rowsOK (g : Grid) : Prop :=
  ∀ (r c₁ c₂ : Fin 9), c₁ ≠ c₂ → g r c₁ ≠ 0 → g r c₁ ≠ g r c₂

/-- No column contains a repeated non-empty digit. -/
def colsOK (g : Grid) : Prop :=
  ∀ (r₁ r₂ c : Fin 9), r₁ ≠ r₂ → g r₁ c ≠ 0 → g r₁ c ≠ g r₂ c

/-- No 3×3 box contains a repeated non-empty digit. -/
def boxesOK (g : Grid) : Prop :=
  ∀ (r₁ c₁ r₂ c₂ : Fin 9), (r₁, c₁) ≠ (r₂, c₂) → boxIdx r₁ c₁ = boxIdx r₂ c₂ →
    g r₁ c₁ ≠ 0 → g r₁ c₁ ≠ g r₂ c₂

/-- The grid violates no Sudoku rule: no duplicate in any row, column or box. -/
def noDups (g : Grid) : Prop := rowsOK g ∧ colsOK g ∧ boxesOK g

instance : DecidablePred complete := fun g =>
  inferInstanceAs (Decidable (∀ r c : Fin 9, g r c ≠ 0))

instance : DecidablePred inRange := fun g =>
  inferInstanceAs (Decidable (∀ r c : Fin 9, g r c ≤ 9))

instance (g : Grid) : Decidable (noDups g) := by
  unfold noDups rowsOK colsOK boxesOK; infer_instance

/-- Number of empty cells of a grid. -/
def numEmpty (g : Grid) : Nat :=
  (Finset.univ.filter (fun p : Fin 9 × Fin 9 => g p.1 p.2 = 0)).card

/-! ## Validator (`src/core/validator.ts`) -/

inductive IssueType
  | row
  | column
  | box
deriving DecidableEq, Repr

/-- `ValidationIssue` of the validator: a duplicated value in one unit. -/
structure ValidationIssue where
  type : IssueType
  index : Nat
  value : Nat
deriving DecidableEq, Repr

inductive ValidationStatus
  | validComplete
  | validIncomplete
  | invalid
deriving DecidableEq, Repr

structure ValidationResult where
  status : ValidationStatus
  issues : List ValidationIssue
deriving DecidableEq, Repr

namespace Validator

/-- `getRow(grid, rowIndex)`: the 9 values of a row. -/
def getRow (g : Grid) (rowIndex : Fin 9) : List Nat :=
  List.ofFn (fun c => g rowIndex c)

/-- `getColumn(grid, colIndex)`: the 9 values of a column. -/
def getColumn (g : Grid) (colIndex : Fin 9) : List Nat :=
  List.ofFn (fun r => g r colIndex)

/-- `getBox(grid, boxIndex)`: the 9 values of a box, row-major within the box. -/
def getBox (g : Grid) (boxIndex : Fin 9) : List Nat :=
  List.ofFn (fun k : Fin 9 =>
    g ⟨boxIndex.val / 3 * 3 + k.val / 3, by omega⟩
      ⟨boxIndex.val % 3 * 3 + k.val % 3, by omega⟩)

/-- Insert into a sorted list (ascending). -/
def insertSorted (v : Nat) : List Nat → List Nat
  | [] => [v]
  | w :: ws => if v ≤ w then v :: w :: ws else w :: insertSorted v ws

/-- Models `array.sort((a, b) => a - b)`: sort ascending. -/
def sortAsc (l : List Nat) : List Nat := l.foldr insertSorted []

/-- The loop of `findDuplicates`: `counts` is the occurrence map built so
far, `dups` the list of duplicates recorded so far.  A value is recorded
when it is seen for the second time (`count === 1`) and is not yet in the
list. -/
def fdLoop : List Nat → (Nat → Nat) → List Nat → List Nat
  | [], _, dups => dups
  | v :: rest, counts, dups =>
    if v = 0 then fdLoop rest counts dups
    else
      let count := counts v
      let counts' := fun x => if x = v then count + 1 else counts x
      let dups' := if count = 1 ∧ v ∉ dups then dups ++ [v] else dups
      fdLoop rest counts' dups'

/-- `findDuplicates(cells)` of `src/core/validator.ts`: non-empty values
occurring at least twice, each once, sorted ascending. -/
def findDuplicates (cells : List Nat) : List Nat :=
  sortAsc (fdLoop cells (fun _ => 0) [])

/-- The issue list built by `validateGrid`: duplicates of the 9 rows, then
the 9 columns, then the 9 boxes, in that order. -/
def issuesOf (g : Grid) : List ValidationIssue :=
  (List.ofFn (fun i : Fin 9 =>
    (findDuplicates (getRow g i)).map
      (fun v => ValidationIssue.mk IssueType.row i.val v))).flatten ++
  (List.ofFn (fun i : Fin 9 =>
    (findDuplicates (getColumn g i)).map
      (fun v => ValidationIssue.mk IssueType.column i.val v))).flatten ++
  (List.ofFn (fun i : Fin 9 =>
    (findDuplicates (getBox g i)).map
      (fun v => ValidationIssue.mk IssueType.box i.val v))).flatten

/-- `grid.some(row => row.some(cell => cell === 0))`. -/
def hasEmptyB (g : Grid) : Bool :=
  (List.ofFn (fun r : Fin 9 =>
    (List.ofFn (fun c : Fin 9 => g r c)).any (fun cell => cell == 0))).any id

/-- `validateGrid(grid)` of `src/core/validator.ts`: collect duplicate
issues for the 9 rows, then the 9 columns, then the 9 boxes; status is
`invalid` if any issue exists, otherwise `valid-incomplete`/`valid-complete`
according to the presence of an empty cell. -/
def validateGrid (g : Grid) : ValidationResult :=
  if (issuesOf g).isEmpty then
    { status := if hasEmptyB g then ValidationStatus.validIncomplete
                else ValidationStatus.validComplete
      issues := [] }
  else
    { status := ValidationStatus.invalid, issues := issuesOf g }

end Validator

/-! ## Validator copy "SUD-3" (`unnamed/part_002`, lines 750–902) -/

namespace Sud3

/-- `findDuplicates(values)` of the SUD-3 validator copy: like the canonical
one but records a value as soon as `count === 1` (no membership test) and
does **not** sort the result. -/
def fdLoop : List Nat → (Nat → Nat) → List Nat → List Nat
  | [], _, dups => dups
  | v :: rest, counts, dups =>
    if v = 0 then fdLoop rest counts dups
    else
      let count := counts v
      let counts' := fun x => if x = v then count + 1 else counts x
      let dups' := if count = 1 then dups ++ [v] else dups
      fdLoop rest counts' dups'

/-- `findDuplicates` of the SUD-3 copy (unsorted). -/
def findDuplicates (cells : List Nat) : List Nat :=
  fdLoop cells (fun _ => 0) []

/-- The issue list built by the SUD-3 `validateGrid` (unsorted values). -/
def issuesOf (g : Grid) : List ValidationIssue :=
  (List.ofFn (fun i : Fin 9 =>
    (findDuplicates (Validator.getRow g i)).map
      (fun v => ValidationIssue.mk IssueType.row i.val v))).flatten ++
  (List.ofFn (fun i : Fin 9 =>
    (findDuplicates (Validator.getColumn g i)).map
      (fun v => ValidationIssue.mk IssueType.column i.val v))).flatten ++
  (List.ofFn (fun i : Fin 9 =>
    (findDuplicates (Validator.getBox g i)).map
      (fun v => ValidationIssue.mk IssueType.box i.val v))).flatten

/-- `validateGrid(grid)` of the SUD-3 copy; identical structure to the
canonical validator, with the unsorted `findDuplicates`. -/
def validateGrid (g : Grid) : ValidationResult :=
  if (issuesOf g).isEmpty then
    { status := if Validator.hasEmptyB g then ValidationStatus.validIncomplete
                else ValidationStatus.validComplete
      issues := [] }
  else
    { status := ValidationStatus.invalid, issues := issuesOf g }

/-- `isValidPlacement(grid, row, col, value)` of the SUD-3 validator copy:
the target cell `(row, col)` itself is skipped in all three unit scans; a
scan with early `return false` is embedded as deciding whether a hit
exists in the scanned range. -/
def isValidPlacement (g : Grid) (row col : Fin 9) (value : Nat) : Bool :=
  if value = 0 then true
  else
    let rowHit := decide (∃ c : Fin 9, c ≠ col ∧ g row c = value)
    let colHit := decide (∃ r : Fin 9, r ≠ row ∧ g r col = value)
    let boxHit := decide (∃ r c : Fin 9, r.val / 3 = row.val / 3 ∧
      c.val / 3 = col.val / 3 ∧ ¬(r = row ∧ c = col) ∧ g r c = value)
    !(rowHit || colHit || boxHit)

end Sud3

/-! ## Solver (`src/core/solver.ts`) -/

/-- `SolveResult` of the solver. -/
structure SolveResult where
  solved : Bool
  grid : Option Grid
  reason : Option String

namespace Solver

/-- The solver's private `isValidPlacement`: scans the whole row, column
and box — it does **not** skip the target cell `(row, col)` itself.  Each
scan with early `return false` is embedded as deciding whether a hit
exists in the scanned range. -/
def isValidPlacement (g : Grid) (row col : Fin 9) (value : Nat) : Bool :=
  let rowHit := decide (∃ c : Fin 9, g row c = value)
  let colHit := decide (∃ r : Fin 9, g r col = value)
  let boxHit := decide (∃ r c : Fin 9, r.val / 3 = row.val / 3 ∧
    c.val / 3 = col.val / 3 ∧ g r c = value)
  !(rowHit || colHit || boxHit)

/-- `findNextEmpty(grid)`: first empty cell in row-major order. -/
def findNextEmpty (g : Grid) : Option (Fin 9 × Fin 9) :=
  (List.finRange 9).findSome? (fun r =>
    ((List.finRange 9).find? (fun c => g r c == 0)).map (fun c => (r, c)))

/-- Candidate loop of `solveBacktracking`: try the candidates in order,
recursing through `rec` on the grid with the candidate placed; the first
success wins, failed candidates are undone (functionally: discarded). -/
def tryCands (rec : Grid → Option Grid) (g : Grid) (r c : Fin 9) :
    List Nat → Option Grid
  | [] => none
  | v :: vs =>
    if isValidPlacement g r c v then
      match rec (setCell g r c v) with
      | some g' => some g'
      | none => tryCands rec g r c vs
    else tryCands rec g r c vs

/-- `solveBacktracking(grid)`, with fuel.  The source recursion fills one
empty cell per call, so any fuel above the number of empty cells (at most
81) makes the `0` branch unreachable. -/
def solveBacktracking : Nat → Grid → Option Grid
  | 0, _ => none
  | fuel + 1, g =>
    match findNextEmpty g with
    | none => some g
    | some (r, c) =>
      tryCands (solveBacktracking fuel) g r c [1, 2, 3, 4, 5, 6, 7, 8, 9]

/-- `solveGrid(inputGrid)` of `src/core/solver.ts`: validate first
(`invalid` grids are rejected without search), search on a private copy,
then re-validate the solved grid as a safety check. -/
def solveGrid (inputGrid : Grid) : SolveResult :=
  if (Validator.validateGrid inputGrid).status = ValidationStatus.invalid then
    { solved := false, grid := none, reason := some "invalid" }
  else
    match solveBacktracking 82 inputGrid with
    | none => { solved := false, grid := none, reason := some "unsolvable" }
    | some working =>
      if (Validator.validateGrid working).status ≠ ValidationStatus.validComplete then
        { solved := false, grid := none, reason := some "unsolvable" }
      else
        { solved := true, grid := some working, reason := none }

end Solver

/-! ## Solver copy "SUD-4" (tail of `src/commands/generate.ts`) -/

namespace Sud4

/-- `findEmptyCell(grid)`: first empty cell in row-major order. -/
def findEmptyCell (g : Grid) : Option (Fin 9 × Fin 9) :=
  (List.finRange 9).findSome? (fun r =>
    ((List.finRange 9).find? (fun c => g r c == 0)).map (fun c => (r, c)))

/-- Candidate loop of `solveRecursive`; the placement check is the SUD-3
validator's `isValidPlacement`. -/
def tryCands (rec : Grid → Option Grid) (g : Grid) (r c : Fin 9) :
    List Nat → Option Grid
  | [] => none
  | v :: vs =>
    if Sud3.isValidPlacement g r c v then
      match rec (setCell g r c v) with
      | some g' => some g'
      | none => tryCands rec g r c vs
    else tryCands rec g r c vs

/-- `solveRecursive(grid)`, with fuel (see `Solver.solveBacktracking`). -/
def solveRecursive : Nat → Grid → Option Grid
  | 0, _ => none
  | fuel + 1, g =>
    match findEmptyCell g with
    | none => some g
    | some (r, c) =>
      tryCands (solveRecursive fuel) g r c [1, 2, 3, 4, 5, 6, 7, 8, 9]

/-- `solveGrid(grid)` of the SUD-4 copy: no pre-validation, no safety
check — just the backtracking search on a working copy. -/
def solveGrid (g : Grid) : SolveResult :=
  match solveRecursive 82 g with
  | some working => { solved := true, grid := some working, reason := none }
  | none => { solved := false, grid := none, reason := some "unsolvable" }

/-- Candidate loop of `countSolutionsRecursive`: `count` accumulates found
solutions; after adding a branch's result the loop returns early as soon as
`count >= maxCount`. -/
def countLoop (rec : Grid → Nat) (g : Grid) (r c : Fin 9) (maxCount : Nat) :
    List Nat → Nat → Nat
  | [], count => count
  | v :: vs, count =>
    if Sud3.isValidPlacement g r c v then
      let count' := count + rec (setCell g r c v)
      if maxCount ≤ count' then count'
      else countLoop rec g r c maxCount vs count'
    else countLoop rec g r c maxCount vs count

/-- `countSolutionsRecursive(grid, maxCount)`, with fuel. -/
def countRec : Nat → Nat → Grid → Nat
  | 0, _, _ => 0
  | fuel + 1, maxCount, g =>
    match findEmptyCell g with
    | none => 1
    | some (r, c) =>
      countLoop (countRec fuel maxCount) g r c maxCount [1, 2, 3, 4, 5, 6, 7, 8, 9] 0

/-- `countSolutions(grid, maxCount = 2)`: bounded solution counter on a
working copy of the grid. -/
def countSolutions (g : Grid) (maxCount : Nat := 2) : Nat :=
  countRec 82 maxCount g

end Sud4

/-! ## List helpers for the validator proofs -/

/-- `insertSorted` inserts, as a permutation. -/
theorem insertSorted_perm (v : Nat) (l : List Nat) :
    (Validator.insertSorted v l).Perm (v :: l) := by
  induction l with
  | nil => simp [Validator.insertSorted]
  | cons w ws ih =>
    by_cases h : v ≤ w
    · simp [Validator.insertSorted, h]
    · simp only [Validator.insertSorted, if_neg h]
      exact (ih.cons w).trans (List.Perm.swap v w ws)

/-- `sortAsc` permutes its input. -/
theorem sortAsc_perm (l : List Nat) : (Validator.sortAsc l).Perm l := by
  induction l with
  | nil => simp [Validator.sortAsc]
  | cons v vs ih =>
    simp only [Validator.sortAsc, List.foldr_cons]
    exact (insertSorted_perm v _).trans (ih.cons v)

theorem insertSorted_sorted {v : Nat} {l : List Nat}
    (h : l.Pairwise (· ≤ ·)) : (Validator.insertSorted v l).Pairwise (· ≤ ·) := by
  induction l with
  | nil => simp [Validator.insertSorted]
  | cons w ws ih =>
    obtain ⟨hw, hws⟩ := List.pairwise_cons.mp h
    by_cases hvw : v ≤ w
    · simp only [Validator.insertSorted, if_pos hvw]
      refine List.Pairwise.cons ?_ h
      intro b hb
      rcases List.mem_cons.mp hb with hb | hb
      · subst hb; exact hvw
      · exact le_trans hvw (hw b hb)
    · simp only [Validator.insertSorted, if_neg hvw]
      refine List.Pairwise.cons ?_ (ih hws)
      intro b hb
      rcases List.mem_cons.mp ((insertSorted_perm v ws).mem_iff.mp hb) with hb | hb
      · subst hb; omega
      · exact hw b hb

/-- `sortAsc` sorts ascending. -/
theorem sortAsc_sorted (l : List Nat) : (Validator.sortAsc l).Pairwise (· ≤ ·) := by
  induction l with
  | nil => simp [Validator.sortAsc]
  | cons v vs ih => exact insertSorted_sorted ih

/-- On a duplicate-free list, `countP` is at least 2 exactly when two
distinct elements satisfy the predicate. -/
theorem two_le_countP_iff {α : Type} [DecidableEq α] (p : α → Bool) :
    ∀ (l : List α), l.Nodup →
      (2 ≤ l.countP p ↔ ∃ a, a ∈ l ∧ ∃ b, b ∈ l ∧ a ≠ b ∧ p a ∧ p b) := by
  intro l
  induction l with
  | nil => simp
  | cons x xs ih =>
    intro hnd
    have hxmem : x ∉ xs := (List.nodup_cons.mp hnd).1
    have hndx : xs.Nodup := (List.nodup_cons.mp hnd).2
    by_cases hx : p x
    · have hcnt : (x :: xs).countP p = xs.countP p + 1 := by
        simp [List.countP_cons, hx]
      rw [hcnt]
      constructor
      · intro h2
        have h1 : 1 ≤ xs.countP p := by omega
        have hex : ∃ b ∈ xs, p b := by
          by_contra hno
          push_neg at hno
          have : xs.countP p = 0 := List.countP_eq_zero.mpr (by
            intro b hb
            simpa using hno b hb)
          omega
        obtain ⟨b, hb, hpb⟩ := hex
        exact ⟨x, by simp, b, by simp [hb], fun he => hxmem (he ▸ hb), hx, hpb⟩
      · intro ⟨a, ha, b, hb, hab, hpa, hpb⟩
        rcases List.mem_cons.mp ha with ha | ha <;> rcases List.mem_cons.mp hb with hb | hb
        · exact absurd (ha.trans hb.symm) hab
        · have : 1 ≤ xs.countP p := List.countP_pos_iff.mpr ⟨b, hb, hpb⟩
          omega
        · have : 1 ≤ xs.countP p := List.countP_pos_iff.mpr ⟨a, ha, hpa⟩
          omega
        · have := (ih hndx).mpr ⟨a, ha, b, hb, hab, hpa, hpb⟩
          omega
    · have hx' : p x = false := by simpa using hx
      have hcnt : (x :: xs).countP p = xs.countP p := by
        simp [List.countP_cons, hx']
      rw [hcnt, ih hndx]
      constructor
      · intro ⟨a, ha, b, hb, hab, hpa, hpb⟩
        exact ⟨a, by simp [ha], b, by simp [hb], hab, hpa, hpb⟩
      · intro ⟨a, ha, b, hb, hab, hpa, hpb⟩
        rcases List.mem_cons.mp ha with ha | ha
        · exact absurd (ha ▸ hpa) (by simp [hx'])
        · rcases List.mem_cons.mp hb with hb | hb
          · exact absurd (hb ▸ hpb) (by simp [hx'])
          · exact ⟨a, ha, b, hb, hab, hpa, hpb⟩

/-! ## `findDuplicates` correctness (both copies) -/

theorem Validator.fdLoop_cons_zero (rest : List Nat) (counts : Nat → Nat)
    (dups : List Nat) :
    Validator.fdLoop (0 :: rest) counts dups = Validator.fdLoop rest counts dups := rfl

theorem Validator.fdLoop_cons_ne {w : Nat} (hw : w ≠ 0) (rest : List Nat)
    (counts : Nat → Nat) (dups : List Nat) :
    Validator.fdLoop (w :: rest) counts dups =
      Validator.fdLoop rest (fun x => if x = w then counts w + 1 else counts x)
        (if counts w = 1 ∧ w ∉ dups then dups ++ [w] else dups) := by
  simp [Validator.fdLoop, hw]

/-- Invariant proof for the canonical `findDuplicates` loop: a non-empty
value is in the final list exactly when its initial count plus its
occurrences in the remaining input reaches 2. -/
theorem Validator.fdLoop_spec :
    ∀ (rest : List Nat) (counts : Nat → Nat) (dups : List Nat),
      (∀ v, v ≠ 0 → (v ∈ dups ↔ 2 ≤ counts v)) → 0 ∉ dups → dups.Nodup →
      ((Validator.fdLoop rest counts dups).Nodup ∧
       0 ∉ Validator.fdLoop rest counts dups ∧
       ∀ v, v ≠ 0 →
         (v ∈ Validator.fdLoop rest counts dups ↔ 2 ≤ counts v + rest.count v)) := by
  intro rest
  induction rest with
  | nil =>
    intro counts dups hinv h0 hnd
    refine ⟨hnd, h0, ?_⟩
    intro v hv
    simpa using hinv v hv
  | cons w ws ih =>
    intro counts dups hinv h0 hnd
    by_cases hw : w = 0
    · subst hw
      rw [Validator.fdLoop_cons_zero]
      obtain ⟨h1, h2, h3⟩ := ih counts dups hinv h0 hnd
      refine ⟨h1, h2, ?_⟩
      intro v hv
      rw [h3 v hv, List.count_cons]
      have hz : ((0 : Nat) == v) = false := by simpa using (Ne.symm hv)
      simp [hz]
    · rw [Validator.fdLoop_cons_ne hw]
      set counts' := fun x => if x = w then counts w + 1 else counts x with hcounts'
      set dups' := if counts w = 1 ∧ w ∉ dups then dups ++ [w] else dups with hdups'
      have hinv' : ∀ v, v ≠ 0 → (v ∈ dups' ↔ 2 ≤ counts' v) := by
        intro v hv
        by_cases hvw : v = w
        · subst hvw
          have hc1 : counts' v = counts v + 1 := by simp [hcounts']
          rw [hc1, hdups']
          by_cases hc : counts v = 1 ∧ v ∉ dups
          · simp only [if_pos hc]
            constructor
            · intro _; omega
            · intro _; simp
          · simp only [if_neg hc]
            push_neg at hc
            constructor
            · intro hm
              have := (hinv v hv).mp hm
              omega
            · intro h2
              by_cases h1 : counts v = 1
              · exact hc h1
              · exact (hinv v hv).mpr (by omega)
        · have hcv : counts' v = counts v := by simp [hcounts', hvw]
          rw [hcv, hdups']
          by_cases hc : counts w = 1 ∧ w ∉ dups
          · simp only [if_pos hc, List.mem_append, List.mem_singleton]
            rw [hinv v hv]
            constructor
            · rintro (h | h)
              · exact h
              · exact absurd h hvw
            · intro h
              exact Or.inl h
          · simp only [if_neg hc]
            exact hinv v hv
      have h0' : 0 ∉ dups' := by
        rw [hdups']
        by_cases hc : counts w = 1 ∧ w ∉ dups
        · simp only [if_pos hc, List.mem_append, List.mem_singleton]
          rintro (h | h)
          · exact h0 h
          · exact hw h.symm
        · simpa [if_neg hc] using h0
      have hnd' : dups'.Nodup := by
        rw [hdups']
        by_cases hc : counts w = 1 ∧ w ∉ dups
        · simp only [if_pos hc]
          refine List.Nodup.append hnd (by simp) ?_
          intro a ha hb
          simp only [List.mem_singleton] at hb
          exact hc.2 (hb ▸ ha)
        · simpa [if_neg hc] using hnd
      obtain ⟨h1, h2, h3⟩ := ih counts' dups' hinv' h0' hnd'
      refine ⟨h1, h2, ?_⟩
      intro v hv
      rw [h3 v hv, List.count_cons]
      by_cases hvw : v = w
      · subst hvw
        have hc1 : counts' v = counts v + 1 := by simp [hcounts']
        rw [hc1]
        simp only [beq_self_eq_true, if_true, eq_self_iff_true]
        omega
      · have hcv : counts' v = counts v := by simp [hcounts', hvw]
        have hbe : (w == v) = false := by simpa using (Ne.symm hvw)
        rw [hcv]
        simp [hbe]

/-- Membership in the canonical `findDuplicates`: exactly the non-empty
values occurring at least twice. -/
theorem Validator.mem_findDuplicates (cells : List Nat) (v : Nat) :
    v ∈ Validator.findDuplicates cells ↔ v ≠ 0 ∧ 2 ≤ cells.count v := by
  have h := Validator.fdLoop_spec cells (fun _ => 0) [] (by simp) (by simp) (by simp)
  unfold Validator.findDuplicates
  rw [(sortAsc_perm _).mem_iff]
  constructor
  · intro hm
    have hv : v ≠ 0 := by
      intro h0
      exact h.2.1 (h0 ▸ hm)
    refine ⟨hv, ?_⟩
    have := (h.2.2 v hv).mp hm
    simpa using this
  · intro ⟨hv, hc⟩
    exact (h.2.2 v hv).mpr (by simpa using hc)

/-- The canonical `findDuplicates` has no repeated entries. -/
theorem Validator.findDuplicates_nodup (cells : List Nat) :
    (Validator.findDuplicates cells).Nodup := by
  have h := Validator.fdLoop_spec cells (fun _ => 0) [] (by simp) (by simp) (by simp)
  exact (sortAsc_perm _).nodup_iff.mpr h.1

/-- The canonical `findDuplicates` is strictly increasing. -/
theorem Validator.findDuplicates_strictSorted (cells : List Nat) :
    (Validator.findDuplicates cells).Pairwise (· < ·) := by
  have hs : (Validator.findDuplicates cells).Pairwise (· ≤ ·) := sortAsc_sorted _
  have hnd : (Validator.findDuplicates cells).Nodup :=
    Validator.findDuplicates_nodup cells
  exact (hs.and hnd).imp (by omega)

theorem Sud3.fdLoop_cons_zero_s3 (rest : List Nat) (counts : Nat → Nat)
    (dups : List Nat) :
    Sud3.fdLoop (0 :: rest) counts dups = Sud3.fdLoop rest counts dups := rfl

theorem Sud3.fdLoop_cons_ne_s3 {w : Nat} (hw : w ≠ 0) (rest : List Nat)
    (counts : Nat → Nat) (dups : List Nat) :
    Sud3.fdLoop (w :: rest) counts dups =
      Sud3.fdLoop rest (fun x => if x = w then counts w + 1 else counts x)
        (if counts w = 1 then dups ++ [w] else dups) := by
  simp [Sud3.fdLoop, hw]

/-- Same loop invariant for the SUD-3 `findDuplicates` loop (which records a
value exactly when its running count hits 1, without a membership test). -/
theorem Sud3.fdLoop_spec_s3 :
    ∀ (rest : List Nat) (counts : Nat → Nat) (dups : List Nat),
      (∀ v, v ≠ 0 → (v ∈ dups ↔ 2 ≤ counts v)) → 0 ∉ dups → dups.Nodup →
      ((Sud3.fdLoop rest counts dups).Nodup ∧
       0 ∉ Sud3.fdLoop rest counts dups ∧
       ∀ v, v ≠ 0 →
         (v ∈ Sud3.fdLoop rest counts dups ↔ 2 ≤ counts v + rest.count v)) := by
  intro rest
  induction rest with
  | nil =>
    intro counts dups hinv h0 hnd
    refine ⟨hnd, h0, ?_⟩
    intro v hv
    simpa using hinv v hv
  | cons w ws ih =>
    intro counts dups hinv h0 hnd
    by_cases hw : w = 0
    · subst hw
      rw [Sud3.fdLoop_cons_zero_s3]
      obtain ⟨h1, h2, h3⟩ := ih counts dups hinv h0 hnd
      refine ⟨h1, h2, ?_⟩
      intro v hv
      rw [h3 v hv, List.count_cons]
      have hz : ((0 : Nat) == v) = false := by simpa using (Ne.symm hv)
      simp [hz]
    · rw [Sud3.fdLoop_cons_ne_s3 hw]
      set counts' := fun x => if x = w then counts w + 1 else counts x with hcounts'
      set dups' := if counts w = 1 then dups ++ [w] else dups with hdups'
      have hwd : counts w = 1 → w ∉ dups := by
        intro h1 hmem
        have := (hinv w hw).mp hmem
        omega
      have hinv' : ∀ v, v ≠ 0 → (v ∈ dups' ↔ 2 ≤ counts' v) := by
        intro v hv
        by_cases hvw : v = w
        · subst hvw
          have hc1 : counts' v = counts v + 1 := by simp [hcounts']
          rw [hc1, hdups']
          by_cases hc : counts v = 1
          · simp only [if_pos hc]
            constructor
            · intro _; omega
            · intro _; simp
          · simp only [if_neg hc]
            constructor
            · intro hm
              have := (hinv v hv).mp hm
              omega
            · intro h2
              exact (hinv v hv).mpr (by omega)
        · have hcv : counts' v = counts v := by simp [hcounts', hvw]
          rw [hcv, hdups']
          by_cases hc : counts w = 1
          · simp only [if_pos hc, List.mem_append, List.mem_singleton]
            rw [hinv v hv]
            constructor
            · rintro (h | h)
              · exact h
              · exact absurd h hvw
            · intro h
              exact Or.inl h
          · simp only [if_neg hc]
            exact hinv v hv
      have h0' : 0 ∉ dups' := by
        rw [hdups']
        by_cases hc : counts w = 1
        · simp only [if_pos hc, List.mem_append, List.mem_singleton]
          rintro (h | h)
          · exact h0 h
          · exact hw h.symm
        · simpa [if_neg hc] using h0
      have hnd' : dups'.Nodup := by
        rw [hdups']
        by_cases hc : counts w = 1
        · simp only [if_pos hc]
          refine List.Nodup.append hnd (by simp) ?_
          intro a ha hb
          simp only [List.mem_singleton] at hb
          exact (hwd hc) (hb ▸ ha)
        · simpa [if_neg hc] using hnd
      obtain ⟨h1, h2, h3⟩ := ih counts' dups' hinv' h0' hnd'
      refine ⟨h1, h2, ?_⟩
      intro v hv
      rw [h3 v hv, List.count_cons]
      by_cases hvw : v = w
      · subst hvw
        have hc1 : counts' v = counts v + 1 := by simp [hcounts']
        rw [hc1]
        simp only [beq_self_eq_true, if_true, eq_self_iff_true]
        omega
      · have hcv : counts' v = counts v := by simp [hcounts', hvw]
        have hbe : (w == v) = false := by simpa using (Ne.symm hvw)
        rw [hcv]
        simp [hbe]

/-- Membership in the SUD-3 `findDuplicates`: same contents as the
canonical one (only the order differs). -/
theorem Sud3.mem_findDuplicates_s3 (cells : List Nat) (v : Nat) :
    v ∈ Sud3.findDuplicates cells ↔ v ≠ 0 ∧ 2 ≤ cells.count v := by
  have h := Sud3.fdLoop_spec_s3 cells (fun _ => 0) [] (by simp) (by simp) (by simp)
  unfold Sud3.findDuplicates
  constructor
  · intro hm
    have hv : v ≠ 0 := by
      intro h0
      exact h.2.1 (h0 ▸ hm)
    refine ⟨hv, ?_⟩
    have := (h.2.2 v hv).mp hm
    simpa using this
  · intro ⟨hv, hc⟩
    exact (h.2.2 v hv).mpr (by simpa using hc)

/-! ## Units versus grid predicates -/

theorem two_le_count_ofFn (f : Fin 9 → Nat) (v : Nat) :
    2 ≤ (List.ofFn f).count v ↔ ∃ i j : Fin 9, i ≠ j ∧ f i = v ∧ f j = v := by
  rw [List.ofFn_eq_map, List.count_eq_countP, List.countP_map,
    two_le_countP_iff _ _ (List.nodup_finRange 9)]
  constructor
  · intro ⟨a, _, b, _, hab, hpa, hpb⟩
    exact ⟨a, b, hab, by simpa using hpa, by simpa using hpb⟩
  · intro ⟨i, j, hij, hi, hj⟩
    exact ⟨i, List.mem_finRange i, j, List.mem_finRange j, hij,
      by simpa using hi, by simpa using hj⟩

theorem Validator.findDuplicates_nil_iff (cells : List Nat) :
    Validator.findDuplicates cells = [] ↔ ∀ v, v ≠ 0 → cells.count v ≤ 1 := by
  rw [List.eq_nil_iff_forall_not_mem]
  constructor
  · intro h v hv
    by_contra hc
    exact h v ((Validator.mem_findDuplicates cells v).mpr ⟨hv, by omega⟩)
  · intro h v hm
    obtain ⟨hv, hc⟩ := (Validator.mem_findDuplicates cells v).mp hm
    have := h v hv
    omega

theorem Sud3.findDuplicates_nil_iff_s3 (cells : List Nat) :
    Sud3.findDuplicates cells = [] ↔ ∀ v, v ≠ 0 → cells.count v ≤ 1 := by
  rw [List.eq_nil_iff_forall_not_mem]
  constructor
  · intro h v hv
    by_contra hc
    exact h v ((Sud3.mem_findDuplicates_s3 cells v).mpr ⟨hv, by omega⟩)
  · intro h v hm
    obtain ⟨hv, hc⟩ := (Sud3.mem_findDuplicates_s3 cells v).mp hm
    have := h v hv
    omega

/-- A row's duplicate counts are small exactly when the row has no
repeated non-empty digit. -/
theorem rowUnit_nil_iff (g : Grid) (r : Fin 9) :
    (∀ v, v ≠ 0 → (Validator.getRow g r).count v ≤ 1) ↔
      (∀ c₁ c₂ : Fin 9, c₁ ≠ c₂ → g r c₁ ≠ 0 → g r c₁ ≠ g r c₂) := by
  unfold Validator.getRow
  constructor
  · intro h c₁ c₂ hne h0 heq
    have h2 : 2 ≤ (List.ofFn (fun c => g r c)).count (g r c₁) :=
      (two_le_count_ofFn _ _).mpr ⟨c₁, c₂, hne, rfl, heq.symm⟩
    have := h (g r c₁) h0
    omega
  · intro h v hv
    by_contra hc
    obtain ⟨i, j, hij, hi, hj⟩ := (two_le_count_ofFn (fun c => g r c) v).mp (by omega)
    exact h i j hij (hi ▸ hv) (by rw [hi, hj])

theorem colUnit_nil_iff (g : Grid) (c : Fin 9) :
    (∀ v, v ≠ 0 → (Validator.getColumn g c).count v ≤ 1) ↔
      (∀ r₁ r₂ : Fin 9, r₁ ≠ r₂ → g r₁ c ≠ 0 → g r₁ c ≠ g r₂ c) := by
  unfold Validator.getColumn
  constructor
  · intro h r₁ r₂ hne h0 heq
    have h2 : 2 ≤ (List.ofFn (fun r => g r c)).count (g r₁ c) :=
      (two_le_count_ofFn _ _).mpr ⟨r₁, r₂, hne, rfl, heq.symm⟩
    have := h (g r₁ c) h0
    omega
  · intro h v hv
    by_contra hc
    obtain ⟨i, j, hij, hi, hj⟩ := (two_le_count_ofFn (fun r => g r c) v).mp (by omega)
    exact h i j hij (hi ▸ hv) (by rw [hi, hj])

/-- The cell of box `b` at intra-box index `k` (row-major), as scanned by
`getBox`. -/
def boxCell (b k : Fin 9) : Fin 9 × Fin 9 :=
  (⟨b.val / 3 * 3 + k.val / 3, by omega⟩, ⟨b.val % 3 * 3 + k.val % 3, by omega⟩)

theorem getBox_eq (g : Grid) (b : Fin 9) :
    Validator.getBox g b = List.ofFn (fun k => g (boxCell b k).1 (boxCell b k).2) := rfl

theorem boxCell_idx (b k : Fin 9) : boxIdx (boxCell b k).1 (boxCell b k).2 = b.val := by
  show (b.val / 3 * 3 + k.val / 3) / 3 * 3 + (b.val % 3 * 3 + k.val % 3) / 3 = b.val
  omega

theorem boxCell_inj {b k₁ k₂ : Fin 9} (h : boxCell b k₁ = boxCell b k₂) : k₁ = k₂ := by
  rw [Prod.mk.injEq] at h
  have h1 : b.val / 3 * 3 + k₁.val / 3 = b.val / 3 * 3 + k₂.val / 3 :=
    congrArg Fin.val h.1
  have h2 : b.val % 3 * 3 + k₁.val % 3 = b.val % 3 * 3 + k₂.val % 3 :=
    congrArg Fin.val h.2
  apply Fin.ext
  omega

theorem boxCell_surj {r c b : Fin 9} (h : boxIdx r c = b.val) :
    boxCell b ⟨r.val % 3 * 3 + c.val % 3, by omega⟩ = (r, c) := by
  unfold boxIdx at h
  unfold boxCell
  refine Prod.ext (Fin.ext ?_) (Fin.ext ?_)
  · show b.val / 3 * 3 + (r.val % 3 * 3 + c.val % 3) / 3 = r.val
    omega
  · show b.val % 3 * 3 + (r.val % 3 * 3 + c.val % 3) % 3 = c.val
    omega

theorem boxUnit_nil_iff (g : Grid) (b : Fin 9) :
    (∀ v, v ≠ 0 → (Validator.getBox g b).count v ≤ 1) ↔
      (∀ r₁ c₁ r₂ c₂ : Fin 9, (r₁, c₁) ≠ (r₂, c₂) →
        boxIdx r₁ c₁ = b.val → boxIdx r₂ c₂ = b.val →
        g r₁ c₁ ≠ 0 → g r₁ c₁ ≠ g r₂ c₂) := by
  rw [getBox_eq]
  constructor
  · intro h r₁ c₁ r₂ c₂ hne hb₁ hb₂ h0 heq
    set k₁ : Fin 9 := ⟨r₁.val % 3 * 3 + c₁.val % 3, by omega⟩ with hk₁
    set k₂ : Fin 9 := ⟨r₂.val % 3 * 3 + c₂.val % 3, by omega⟩ with hk₂
    have hc₁ : boxCell b k₁ = (r₁, c₁) := boxCell_surj hb₁
    have hc₂ : boxCell b k₂ = (r₂, c₂) := boxCell_surj hb₂
    have hkne : k₁ ≠ k₂ := by
      intro hk
      exact hne (hc₁ ▸ hc₂ ▸ hk ▸ rfl)
    have hv₁ : g (boxCell b k₁).1 (boxCell b k₁).2 = g r₁ c₁ := by rw [hc₁]
    have hv₂ : g (boxCell b k₂).1 (boxCell b k₂).2 = g r₂ c₂ := by rw [hc₂]
    have h2 : 2 ≤ (List.ofFn (fun k => g (boxCell b k).1 (boxCell b k).2)).count (g r₁ c₁) :=
      (two_le_count_ofFn _ _).mpr ⟨k₁, k₂, hkne, hv₁, by rw [hv₂, heq]⟩
    have := h (g r₁ c₁) h0
    omega
  · intro h v hv
    by_contra hc
    obtain ⟨i, j, hij, hi, hj⟩ :=
      (two_le_count_ofFn (fun k => g (boxCell b k).1 (boxCell b k).2) v).mp (by omega)
    refine h (boxCell b i).1 (boxCell b i).2 (boxCell b j).1 (boxCell b j).2
      ?_ (boxCell_idx b i) (boxCell_idx b j) (hi ▸ hv) ?_
    · intro hp
      exact hij (boxCell_inj (Prod.ext (congrArg Prod.fst hp) (congrArg Prod.snd hp)))
    · rw [hi, hj]

theorem boxIdx_lt (r c : Fin 9) : boxIdx r c < 9 := by
  unfold boxIdx
  omega

theorem flatten_ofFn_eq_nil {α : Type} {f : Fin 9 → List α} :
    (List.ofFn f).flatten = [] ↔ ∀ i, f i = [] := by
  rw [List.flatten_eq_nil_iff]
  constructor
  · intro h i
    exact h _ ((List.mem_ofFn f (f i)).mpr ⟨i, rfl⟩)
  · intro h l hl
    obtain ⟨i, rfl⟩ := (List.mem_ofFn f l).mp hl
    exact h i

/-- The canonical issue list is empty exactly on rule-respecting grids. -/
theorem Validator.issuesOf_nil_iff (g : Grid) :
    Validator.issuesOf g = [] ↔ noDups g := by
  unfold Validator.issuesOf noDups rowsOK colsOK boxesOK
  rw [List.append_eq_nil, List.append_eq_nil]
  rw [flatten_ofFn_eq_nil, flatten_ofFn_eq_nil, flatten_ofFn_eq_nil]
  have hmap : ∀ (l : List Nat) (t : IssueType) (i : Nat),
      (l.map (fun v => ValidationIssue.mk t i v) = []) ↔ l = [] := by
    intro l t i
    exact List.map_eq_nil_iff
  constructor
  · intro ⟨⟨hr, hc⟩, hb⟩
    refine ⟨?_, ?_, ?_⟩
    · intro r c₁ c₂
      exact (rowUnit_nil_iff g r).mp
        ((Validator.findDuplicates_nil_iff _).mp ((hmap _ _ _).mp (hr r))) c₁ c₂
    · intro r₁ r₂ c
      exact (colUnit_nil_iff g c).mp
        ((Validator.findDuplicates_nil_iff _).mp ((hmap _ _ _).mp (hc c))) r₁ r₂
    · intro r₁ c₁ r₂ c₂ hne hbx
      have hlt := boxIdx_lt r₁ c₁
      have := (boxUnit_nil_iff g ⟨boxIdx r₁ c₁, hlt⟩).mp
        ((Validator.findDuplicates_nil_iff _).mp ((hmap _ _ _).mp (hb ⟨boxIdx r₁ c₁, hlt⟩)))
      exact this r₁ c₁ r₂ c₂ hne rfl hbx.symm
  · intro ⟨hr, hc, hb⟩
    refine ⟨⟨?_, ?_⟩, ?_⟩
    · intro i
      exact (hmap _ _ _).mpr ((Validator.findDuplicates_nil_iff _).mpr
        ((rowUnit_nil_iff g i).mpr (fun c₁ c₂ => hr i c₁ c₂)))
    · intro i
      exact (hmap _ _ _).mpr ((Validator.findDuplicates_nil_iff _).mpr
        ((colUnit_nil_iff g i).mpr (fun r₁ r₂ => hc r₁ r₂ i)))
    · intro i
      refine (hmap _ _ _).mpr ((Validator.findDuplicates_nil_iff _).mpr
        ((boxUnit_nil_iff g i).mpr ?_))
      intro r₁ c₁ r₂ c₂ hne hb₁ hb₂
      exact hb r₁ c₁ r₂ c₂ hne (hb₁.trans hb₂.symm)

/-- Same for the SUD-3 issue list. -/
theorem Sud3.issuesOf_nil_iff_s3 (g : Grid) :
    Sud3.issuesOf g = [] ↔ noDups g := by
  unfold Sud3.issuesOf noDups rowsOK colsOK boxesOK
  rw [List.append_eq_nil, List.append_eq_nil]
  rw [flatten_ofFn_eq_nil, flatten_ofFn_eq_nil, flatten_ofFn_eq_nil]
  have hmap : ∀ (l : List Nat) (t : IssueType) (i : Nat),
      (l.map (fun v => ValidationIssue.mk t i v) = []) ↔ l = [] := by
    intro l t i
    exact List.map_eq_nil_iff
  constructor
  · intro ⟨⟨hr, hc⟩, hb⟩
    refine ⟨?_, ?_, ?_⟩
    · intro r c₁ c₂
      exact (rowUnit_nil_iff g r).mp
        ((Sud3.findDuplicates_nil_iff_s3 _).mp ((hmap _ _ _).mp (hr r))) c₁ c₂
    · intro r₁ r₂ c
      exact (colUnit_nil_iff g c).mp
        ((Sud3.findDuplicates_nil_iff_s3 _).mp ((hmap _ _ _).mp (hc c))) r₁ r₂
    · intro r₁ c₁ r₂ c₂ hne hbx
      have hlt := boxIdx_lt r₁ c₁
      have := (boxUnit_nil_iff g ⟨boxIdx r₁ c₁, hlt⟩).mp
        ((Sud3.findDuplicates_nil_iff_s3 _).mp ((hmap _ _ _).mp (hb ⟨boxIdx r₁ c₁, hlt⟩)))
      exact this r₁ c₁ r₂ c₂ hne rfl hbx.symm
  · intro ⟨hr, hc, hb⟩
    refine ⟨⟨?_, ?_⟩, ?_⟩
    · intro i
      exact (hmap _ _ _).mpr ((Sud3.findDuplicates_nil_iff_s3 _).mpr
        ((rowUnit_nil_iff g i).mpr (fun c₁ c₂ => hr i c₁ c₂)))
    · intro i
      exact (hmap _ _ _).mpr ((Sud3.findDuplicates_nil_iff_s3 _).mpr
        ((colUnit_nil_iff g i).mpr (fun r₁ r₂ => hc r₁ r₂ i)))
    · intro i
      refine (hmap _ _ _).mpr ((Sud3.findDuplicates_nil_iff_s3 _).mpr
        ((boxUnit_nil_iff g i).mpr ?_))
      intro r₁ c₁ r₂ c₂ hne hb₁ hb₂
      exact hb r₁ c₁ r₂ c₂ hne (hb₁.trans hb₂.symm)

/-- `hasEmptyB` detects exactly the incomplete grids. -/
theorem Validator.hasEmptyB_iff (g : Grid) :
    Validator.hasEmptyB g = true ↔ ¬ complete g := by
  unfold Validator.hasEmptyB complete
  rw [List.any_eq_true]
  constructor
  · intro ⟨x, hx, hid⟩
    obtain ⟨r, rfl⟩ := (List.mem_ofFn _ _).mp hx
    simp only [id_eq] at hid
    rw [List.any_eq_true] at hid
    obtain ⟨y, hy, hcell⟩ := hid
    obtain ⟨c, rfl⟩ := (List.mem_ofFn _ _).mp hy
    intro hcompl
    exact hcompl r c (by simpa using hcell)
  · intro h
    push_neg at h
    obtain ⟨r, c, hrc⟩ := h
    refine ⟨_, (List.mem_ofFn _ _).mpr ⟨r, rfl⟩, ?_⟩
    simp only [id_eq]
    rw [List.any_eq_true]
    exact ⟨g r c, (List.mem_ofFn _ _).mpr ⟨c, rfl⟩, by simpa using hrc⟩

/-! ## Validator status classification -/

theorem Validator.status_invalid_iff (g : Grid) :
    (Validator.validateGrid g).status = ValidationStatus.invalid ↔ ¬ noDups g := by
  unfold Validator.validateGrid
  by_cases h : Validator.issuesOf g = []
  · have hnd := (Validator.issuesOf_nil_iff g).mp h
    rw [if_pos (by simpa [List.isEmpty_iff] using h)]
    by_cases he : Validator.hasEmptyB g <;> simp [he, hnd]
  · have hnd := fun hd => h ((Validator.issuesOf_nil_iff g).mpr hd)
    rw [if_neg (by simpa [List.isEmpty_iff] using h)]
    simpa using hnd

theorem Validator.status_validComplete_iff (g : Grid) :
    (Validator.validateGrid g).status = ValidationStatus.validComplete ↔
      noDups g ∧ complete g := by
  unfold Validator.validateGrid
  by_cases h : Validator.issuesOf g = []
  · have hnd := (Validator.issuesOf_nil_iff g).mp h
    rw [if_pos (by simpa [List.isEmpty_iff] using h)]
    by_cases he : Validator.hasEmptyB g
    · have := (Validator.hasEmptyB_iff g).mp he
      simp [he, hnd, this]
    · have : complete g := by
        by_contra hc
        exact he ((Validator.hasEmptyB_iff g).mpr hc)
      simp [he, hnd, this]
  · have hnd := fun hd => h ((Validator.issuesOf_nil_iff g).mpr hd)
    rw [if_neg (by simpa [List.isEmpty_iff] using h)]
    simp only [ne_eq]
    constructor
    · intro hx
      exact absurd hx (by simp)
    · intro ⟨hd, _⟩
      exact absurd hd hnd

theorem Validator.status_validIncomplete_iff (g : Grid) :
    (Validator.validateGrid g).status = ValidationStatus.validIncomplete ↔
      noDups g ∧ ¬ complete g := by
  unfold Validator.validateGrid
  by_cases h : Validator.issuesOf g = []
  · have hnd := (Validator.issuesOf_nil_iff g).mp h
    rw [if_pos (by simpa [List.isEmpty_iff] using h)]
    by_cases he : Validator.hasEmptyB g
    · have := (Validator.hasEmptyB_iff g).mp he
      simp [he, hnd, this]
    · have : complete g := by
        by_contra hc
        exact he ((Validator.hasEmptyB_iff g).mpr hc)
      simp [he, hnd, this]
  · have hnd := fun hd => h ((Validator.issuesOf_nil_iff g).mpr hd)
    rw [if_neg (by simpa [List.isEmpty_iff] using h)]
    simp only [ne_eq]
    constructor
    · intro hx
      exact absurd hx (by simp)
    · intro ⟨hd, _⟩
      exact absurd hd hnd

/-- On a rule-respecting complete grid the canonical validator returns
exactly `valid-complete` with no issues. -/
theorem Validator.validateGrid_of_complete {g : Grid} (hnd : noDups g)
    (hc : complete g) :
    Validator.validateGrid g =
      { status := ValidationStatus.validComplete, issues := [] } := by
  have h : Validator.issuesOf g = [] := (Validator.issuesOf_nil_iff g).mpr hnd
  unfold Validator.validateGrid
  rw [if_pos (by simpa [List.isEmpty_iff] using h)]
  have he : Validator.hasEmptyB g = false := by
    by_contra hx
    simp only [Bool.not_eq_false] at hx
    exact (Validator.hasEmptyB_iff g).mp hx hc
  simp [he]

theorem Sud3.status_invalid_iff_s3 (g : Grid) :
    (Sud3.validateGrid g).status = ValidationStatus.invalid ↔ ¬ noDups g := by
  unfold Sud3.validateGrid
  by_cases h : Sud3.issuesOf g = []
  · have hnd := (Sud3.issuesOf_nil_iff_s3 g).mp h
    rw [if_pos (by simpa [List.isEmpty_iff] using h)]
    by_cases he : Validator.hasEmptyB g <;> simp [he, hnd]
  · have hnd := fun hd => h ((Sud3.issuesOf_nil_iff_s3 g).mpr hd)
    rw [if_neg (by simpa [List.isEmpty_iff] using h)]
    simpa using hnd

theorem Sud3.status_validComplete_iff_s3 (g : Grid) :
    (Sud3.validateGrid g).status = ValidationStatus.validComplete ↔
      noDups g ∧ complete g := by
  unfold Sud3.validateGrid
  by_cases h : Sud3.issuesOf g = []
  · have hnd := (Sud3.issuesOf_nil_iff_s3 g).mp h
    rw [if_pos (by simpa [List.isEmpty_iff] using h)]
    by_cases he : Validator.hasEmptyB g
    · have := (Validator.hasEmptyB_iff g).mp he
      simp [he, hnd, this]
    · have : complete g := by
        by_contra hc
        exact he ((Validator.hasEmptyB_iff g).mpr hc)
      simp [he, hnd, this]
  · have hnd := fun hd => h ((Sud3.issuesOf_nil_iff_s3 g).mpr hd)
    rw [if_neg (by simpa [List.isEmpty_iff] using h)]
    simp only [ne_eq]
    constructor
    · intro hx
      exact absurd hx (by simp)
    · intro ⟨hd, _⟩
      exact absurd hd hnd

/-! ## Placement checks -/

/-- No cell of `(r, c)`'s row, column or box other than `(r, c)` itself
holds `v`. -/
def placeFree (g : Grid) (r c : Fin 9) (v : Nat) : Prop :=
  (∀ c' : Fin 9, c' ≠ c → g r c' ≠ v) ∧
  (∀ r' : Fin 9, r' ≠ r → g r' c ≠ v) ∧
  (∀ r' c' : Fin 9, boxIdx r' c' = boxIdx r c → ¬(r' = r ∧ c' = c) → g r' c' ≠ v)

/-- No cell of `(r, c)`'s row, column or box — `(r, c)` included — holds
`v`. -/
def placeFreeAll (g : Grid) (r c : Fin 9) (v : Nat) : Prop :=
  (∀ c' : Fin 9, g r c' ≠ v) ∧
  (∀ r' : Fin 9, g r' c ≠ v) ∧
  (∀ r' c' : Fin 9, boxIdx r' c' = boxIdx r c → g r' c' ≠ v)

theorem sameBox_iff {r c r' c' : Fin 9} :
    boxIdx r' c' = boxIdx r c ↔ (r'.val / 3 = r.val / 3 ∧ c'.val / 3 = c.val / 3) := by
  unfold boxIdx
  omega

set_option maxHeartbeats 1000000 in
/-- The SUD-3 `isValidPlacement` returns `true` exactly when no *other*
cell of the three units holds `v` (for a real digit `v`). -/
theorem Sud3.isValidPlacement_true_iff_s3 {g : Grid} {r c : Fin 9} {v : Nat}
    (hv : v ≠ 0) : Sud3.isValidPlacement g r c v = true ↔ placeFree g r c v := by
  unfold Sud3.isValidPlacement
  rw [if_neg hv]
  simp only [Bool.not_eq_true', Bool.or_eq_false_iff, decide_eq_false_iff_not]
  unfold placeFree
  constructor
  · intro ⟨⟨hrow, hcol⟩, hbox⟩
    refine ⟨?_, ?_, ?_⟩
    · intro c' hc' hgv
      exact hrow ⟨c', hc', hgv⟩
    · intro r' hr' hgv
      exact hcol ⟨r', hr', hgv⟩
    · intro r' c' hb hne hgv
      obtain ⟨hr3, hc3⟩ := sameBox_iff.mp hb
      exact hbox ⟨r', c', hr3, hc3, hne, hgv⟩
  · intro ⟨hrow, hcol, hbox⟩
    refine ⟨⟨?_, ?_⟩, ?_⟩
    · intro ⟨c', hc', hgv⟩
      exact hrow c' hc' hgv
    · intro ⟨r', hr', hgv⟩
      exact hcol r' hr' hgv
    · intro ⟨r', c', hr3, hc3, hne, hgv⟩
      exact hbox r' c' (sameBox_iff.mpr ⟨hr3, hc3⟩) hne hgv

set_option maxHeartbeats 1000000 in
/-- The solver's private `isValidPlacement` returns `true` exactly when no
cell of the three units — the target cell included — holds `v`. -/
theorem Solver.isValidPlacement_true_iff (g : Grid) (r c : Fin 9) (v : Nat) :
    Solver.isValidPlacement g r c v = true ↔ placeFreeAll g r c v := by
  unfold Solver.isValidPlacement
  simp only [Bool.not_eq_true', Bool.or_eq_false_iff, decide_eq_false_iff_not]
  unfold placeFreeAll
  constructor
  · intro ⟨⟨hrow, hcol⟩, hbox⟩
    refine ⟨?_, ?_, ?_⟩
    · intro c' hgv
      exact hrow ⟨c', hgv⟩
    · intro r' hgv
      exact hcol ⟨r', hgv⟩
    · intro r' c' hb hgv
      obtain ⟨hr3, hc3⟩ := sameBox_iff.mp hb
      exact hbox ⟨r', c', hr3, hc3, hgv⟩
  · intro ⟨hrow, hcol, hbox⟩
    refine ⟨⟨?_, ?_⟩, ?_⟩
    · intro ⟨c', hgv⟩
      exact hrow c' hgv
    · intro ⟨r', hgv⟩
      exact hcol r' hgv
    · intro ⟨r', c', hr3, hc3, hgv⟩
      exact hbox r' c' (sameBox_iff.mpr ⟨hr3, hc3⟩) hgv

/-- A full-scan pass entails the self-excluding pass. -/
theorem placeFreeAll.toFree {g : Grid} {r c : Fin 9} {v : Nat}
    (h : placeFreeAll g r c v) : placeFree g r c v :=
  ⟨fun c' _ => h.1 c', fun r' _ => h.2.1 r', fun r' c' hb _ => h.2.2 r' c' hb⟩

/-- On an empty target cell the self-excluding pass entails the full scan
(for a real digit `v`). -/
theorem placeFree.toAll {g : Grid} {r c : Fin 9} {v : Nat} (hv : v ≠ 0)
    (h0 : g r c = 0) (h : placeFree g r c v) : placeFreeAll g r c v := by
  refine ⟨?_, ?_, ?_⟩
  · intro c'
    by_cases hc' : c' = c
    · subst hc'
      rw [h0]
      omega
    · exact h.1 c' hc'
  · intro r'
    by_cases hr' : r' = r
    · subst hr'
      rw [h0]
      omega
    · exact h.2.1 r' hr'
  · intro r' c' hb
    by_cases hne : r' = r ∧ c' = c
    · rw [hne.1, hne.2, h0]
      omega
    · exact h.2.2 r' c' hb hne

/-! ## Cell updates and empty-cell bookkeeping -/

theorem setCell_same (g : Grid) (r c : Fin 9) (v : Nat) :
    setCell g r c v r c = v := by
  unfold setCell
  simp

theorem setCell_other {g : Grid} {r c r' c' : Fin 9} (v : Nat)
    (h : ¬(r' = r ∧ c' = c)) : setCell g r c v r' c' = g r' c' := by
  unfold setCell
  by_cases h1 : r' = r
  · by_cases h2 : c' = c
    · exact absurd ⟨h1, h2⟩ h
    · simp [h1, h2]
  · simp [h1]

theorem extendsGrid_refl (g : Grid) : extendsGrid g g := fun _ _ _ => rfl

theorem extendsGrid_trans {g₁ g₂ g₃ : Grid} (h₁ : extendsGrid g₁ g₂)
    (h₂ : extendsGrid g₂ g₃) : extendsGrid g₁ g₃ := by
  intro r c h0
  rw [h₂ r c (by rw [h₁ r c h0]; exact h0), h₁ r c h0]

theorem extendsGrid_setCell {g : Grid} {r c : Fin 9} {v : Nat}
    (h0 : g r c = 0) : extendsGrid g (setCell g r c v) := by
  intro r' c' hne
  apply setCell_other
  intro ⟨h1, h2⟩
  rw [h1, h2] at hne
  exact hne h0

theorem setCell_at {g : Grid} {r c r' c' : Fin 9} {v : Nat}
    (h1 : r' = r) (h2 : c' = c) : setCell g r c v r' c' = v := by
  rw [h1, h2, setCell_same]

/-- Placing a value that passes the self-excluding check preserves the
no-duplicates invariant. -/
theorem noDups_setCell {g : Grid} {r c : Fin 9} {v : Nat}
    (hnd : noDups g) (hfree : placeFree g r c v) : noDups (setCell g r c v) := by
  obtain ⟨hr, hc, hb⟩ := hnd
  obtain ⟨hfr, hfc, hfb⟩ := hfree
  refine ⟨?_, ?_, ?_⟩
  · intro r' c₁ c₂ hne h0 heq
    by_cases h1 : r' = r ∧ c₁ = c
    · by_cases h2 : r' = r ∧ c₂ = c
      · exact hne (h1.2.trans h2.2.symm)
      · have hL : setCell g r c v r' c₁ = v := setCell_at h1.1 h1.2
        have hR : setCell g r c v r' c₂ = g r' c₂ := setCell_other _ h2
        have hgv : g r' c₂ = v := by rw [← hR, ← heq, hL]
        rw [h1.1] at hgv
        exact hfr c₂ (fun hcc => h2 ⟨h1.1, hcc⟩) hgv
    · have hL : setCell g r c v r' c₁ = g r' c₁ := setCell_other _ h1
      by_cases h2 : r' = r ∧ c₂ = c
      · have hR : setCell g r c v r' c₂ = v := setCell_at h2.1 h2.2
        have hgv : g r' c₁ = v := by rw [← hL, heq, hR]
        rw [h2.1] at hgv
        exact hfr c₁ (fun hcc => h1 ⟨h2.1, hcc⟩) hgv
      · have hR : setCell g r c v r' c₂ = g r' c₂ := setCell_other _ h2
        rw [hL] at h0
        rw [hL, hR] at heq
        exact hr r' c₁ c₂ hne h0 heq
  · intro r₁ r₂ c' hne h0 heq
    by_cases h1 : r₁ = r ∧ c' = c
    · by_cases h2 : r₂ = r ∧ c' = c
      · exact hne (h1.1.trans h2.1.symm)
      · have hL : setCell g r c v r₁ c' = v := setCell_at h1.1 h1.2
        have hR : setCell g r c v r₂ c' = g r₂ c' := setCell_other _ h2
        have hgv : g r₂ c' = v := by rw [← hR, ← heq, hL]
        rw [h1.2] at hgv
        exact hfc r₂ (fun hrr => h2 ⟨hrr, h1.2⟩) hgv
    · have hL : setCell g r c v r₁ c' = g r₁ c' := setCell_other _ h1
      by_cases h2 : r₂ = r ∧ c' = c
      · have hR : setCell g r c v r₂ c' = v := setCell_at h2.1 h2.2
        have hgv : g r₁ c' = v := by rw [← hL, heq, hR]
        rw [h2.2] at hgv
        exact hfc r₁ (fun hrr => h1 ⟨hrr, h2.2⟩) hgv
      · have hR : setCell g r c v r₂ c' = g r₂ c' := setCell_other _ h2
        rw [hL] at h0
        rw [hL, hR] at heq
        exact hc r₁ r₂ c' hne h0 heq
  · intro r₁ c₁ r₂ c₂ hne hbx h0 heq
    by_cases h1 : r₁ = r ∧ c₁ = c
    · by_cases h2 : r₂ = r ∧ c₂ = c
      · exact hne (by rw [h1.1, h1.2, h2.1, h2.2])
      · have hL : setCell g r c v r₁ c₁ = v := setCell_at h1.1 h1.2
        have hR : setCell g r c v r₂ c₂ = g r₂ c₂ := setCell_other _ h2
        have hgv : g r₂ c₂ = v := by rw [← hR, ← heq, hL]
        have hbx' : boxIdx r₂ c₂ = boxIdx r c := by rw [← hbx, h1.1, h1.2]
        exact hfb r₂ c₂ hbx' h2 hgv
    · have hL : setCell g r c v r₁ c₁ = g r₁ c₁ := setCell_other _ h1
      by_cases h2 : r₂ = r ∧ c₂ = c
      · have hR : setCell g r c v r₂ c₂ = v := setCell_at h2.1 h2.2
        have hgv : g r₁ c₁ = v := by rw [← hL, heq, hR]
        have hbx' : boxIdx r₁ c₁ = boxIdx r c := by rw [hbx, h2.1, h2.2]
        exact hfb r₁ c₁ hbx' h1 hgv
      · have hR : setCell g r c v r₂ c₂ = g r₂ c₂ := setCell_other _ h2
        rw [hL] at h0
        rw [hL, hR] at heq
        exact hb r₁ c₁ r₂ c₂ hne hbx h0 heq

theorem numEmpty_le (g : Grid) : numEmpty g ≤ 81 := by
  unfold numEmpty
  calc (Finset.univ.filter (fun p : Fin 9 × Fin 9 => g p.1 p.2 = 0)).card
      ≤ (Finset.univ : Finset (Fin 9 × Fin 9)).card := Finset.card_filter_le _ _
    _ = 81 := by simp

/-- Filling an empty cell with a digit decreases the number of empty cells
by one. -/
theorem numEmpty_setCell {g : Grid} {r c : Fin 9} {v : Nat} (h0 : g r c = 0)
    (hv : v ≠ 0) : numEmpty (setCell g r c v) + 1 = numEmpty g := by
  unfold numEmpty
  have hset : Finset.univ.filter (fun p : Fin 9 × Fin 9 => setCell g r c v p.1 p.2 = 0)
      = (Finset.univ.filter (fun p : Fin 9 × Fin 9 => g p.1 p.2 = 0)).erase (r, c) := by
    ext p
    simp only [Finset.mem_filter, Finset.mem_erase, Finset.mem_univ, true_and]
    constructor
    · intro hp
      by_cases hpc : p = (r, c)
      · rw [hpc] at hp
        rw [setCell_same] at hp
        exact absurd hp hv
      · have : ¬(p.1 = r ∧ p.2 = c) := by
          intro ⟨h1, h2⟩
          exact hpc (Prod.ext h1 h2)
        rw [setCell_other _ this] at hp
        exact ⟨hpc, hp⟩
    · intro ⟨hpc, hp⟩
      have : ¬(p.1 = r ∧ p.2 = c) := by
        intro ⟨h1, h2⟩
        exact hpc (Prod.ext h1 h2)
      rw [setCell_other _ this]
      exact hp
  rw [hset]
  have hmem : (r, c) ∈ Finset.univ.filter (fun p : Fin 9 × Fin 9 => g p.1 p.2 = 0) := by
    simp [h0]
  rw [Finset.card_erase_of_mem hmem]
  have : 1 ≤ (Finset.univ.filter (fun p : Fin 9 × Fin 9 => g p.1 p.2 = 0)).card :=
    Finset.card_pos.mpr ⟨(r, c), hmem⟩
  omega

/-! ## Empty-cell scan -/

theorem Solver.findNextEmpty_none_iff (g : Grid) :
    Solver.findNextEmpty g = none ↔ complete g := by
  unfold Solver.findNextEmpty complete
  rw [List.findSome?_eq_none_iff]
  constructor
  · intro h r c hrc
    have := h r (List.mem_finRange r)
    rw [Option.map_eq_none'] at this
    rw [List.find?_eq_none] at this
    exact this c (List.mem_finRange c) (by simpa using hrc)
  · intro h r _
    rw [Option.map_eq_none', List.find?_eq_none]
    intro c _ hc
    exact h r c (by simpa using hc)

theorem Solver.findNextEmpty_some_empty {g : Grid} {r c : Fin 9}
    (h : Solver.findNextEmpty g = some (r, c)) : g r c = 0 := by
  unfold Solver.findNextEmpty at h
  obtain ⟨a, _, ha⟩ := List.exists_of_findSome?_eq_some h
  rw [Option.map_eq_some'] at ha
  obtain ⟨c', hc', hpair⟩ := ha
  have hp := List.find?_some hc'
  have : a = r ∧ c' = c := by
    have := hpair
    rw [Prod.mk.injEq] at this
    exact this
  rw [← this.1, ← this.2]
  simpa using hp

theorem Sud4.findEmptyCell_eq (g : Grid) :
    Sud4.findEmptyCell g = Solver.findNextEmpty g := rfl

/-! ## Backtracking search: soundness lemmas -/

/-- Any grid returned by the candidate loop comes from a recursive call on
some placement `setCell g r c v` with an empty target cell. -/
theorem Solver.tryCands_out {rec : Grid → Option Grid} {P : Grid → Prop}
    (hrec : ∀ h g', rec h = some g' → P g') :
    ∀ (vs : List Nat) (g : Grid) (r c : Fin 9) (g' : Grid),
      Solver.tryCands rec g r c vs = some g' → P g' := by
  intro vs
  induction vs with
  | nil =>
    intro g r c g' h
    simp [Solver.tryCands] at h
  | cons v vs ih =>
    intro g r c g' h
    unfold Solver.tryCands at h
    by_cases hchk : Solver.isValidPlacement g r c v
    · rw [if_pos hchk] at h
      cases hrec' : rec (setCell g r c v) with
      | some g'' =>
        rw [hrec'] at h
        simp only [Option.some.injEq] at h
        exact h ▸ hrec _ _ hrec'
      | none =>
        rw [hrec'] at h
        exact ih g r c g' h
    · rw [if_neg hchk] at h
      exact ih g r c g' h

/-- The candidate loop only extends the grid (relative to `extendsGrid`)
when the target cell is empty. -/
theorem Solver.tryCands_extends {rec : Grid → Option Grid}
    (hrec : ∀ h g', rec h = some g' → extendsGrid h g') :
    ∀ (vs : List Nat) (g : Grid) (r c : Fin 9) (g' : Grid), g r c = 0 →
      Solver.tryCands rec g r c vs = some g' → extendsGrid g g' := by
  intro vs
  induction vs with
  | nil =>
    intro g r c g' h0 h
    simp [Solver.tryCands] at h
  | cons v vs ih =>
    intro g r c g' h0 h
    unfold Solver.tryCands at h
    by_cases hchk : Solver.isValidPlacement g r c v
    · rw [if_pos hchk] at h
      cases hrec' : rec (setCell g r c v) with
      | some g'' =>
        rw [hrec'] at h
        simp only [Option.some.injEq] at h
        exact h ▸ extendsGrid_trans (extendsGrid_setCell h0) (hrec _ _ hrec')
      | none =>
        rw [hrec'] at h
        exact ih g r c g' h0 h
    · rw [if_neg hchk] at h
      exact ih g r c g' h0 h

/-- The candidate loop preserves the no-duplicates invariant. -/
theorem Solver.tryCands_noDups {rec : Grid → Option Grid}
    (hrec : ∀ h g', noDups h → rec h = some g' → noDups g') :
    ∀ (vs : List Nat) (g : Grid) (r c : Fin 9) (g' : Grid), noDups g →
      Solver.tryCands rec g r c vs = some g' → noDups g' := by
  intro vs
  induction vs with
  | nil =>
    intro g r c g' hnd h
    simp [Solver.tryCands] at h
  | cons v vs ih =>
    intro g r c g' hnd h
    unfold Solver.tryCands at h
    by_cases hchk : Solver.isValidPlacement g r c v
    · rw [if_pos hchk] at h
      cases hrec' : rec (setCell g r c v) with
      | some g'' =>
        rw [hrec'] at h
        simp only [Option.some.injEq] at h
        have hfree : placeFree g r c v :=
          ((Solver.isValidPlacement_true_iff g r c v).mp hchk).toFree
        exact h ▸ hrec _ _ (noDups_setCell hnd hfree) hrec'
      | none =>
        rw [hrec'] at h
        exact ih g r c g' hnd h
    · rw [if_neg hchk] at h
      exact ih g r c g' hnd h

/-- A successful search extends the starting grid: every originally
non-empty cell keeps its value. -/
theorem Solver.solveBacktracking_extends :
    ∀ (fuel : Nat) (g g' : Grid),
      Solver.solveBacktracking fuel g = some g' → extendsGrid g g' := by
  intro fuel
  induction fuel with
  | zero =>
    intro g g' h
    simp [Solver.solveBacktracking] at h
  | succ fuel ih =>
    intro g g' h
    unfold Solver.solveBacktracking at h
    cases hfind : Solver.findNextEmpty g with
    | none =>
      rw [hfind] at h
      simp only [Option.some.injEq] at h
      exact h ▸ extendsGrid_refl g
    | some rc =>
      rw [hfind] at h
      obtain ⟨r, c⟩ := rc
      exact Solver.tryCands_extends ih _ g r c g'
        (Solver.findNextEmpty_some_empty hfind) h

/-- A successful search returns a complete grid. -/
theorem Solver.solveBacktracking_complete :
    ∀ (fuel : Nat) (g g' : Grid),
      Solver.solveBacktracking fuel g = some g' → complete g' := by
  intro fuel
  induction fuel with
  | zero =>
    intro g g' h
    simp [Solver.solveBacktracking] at h
  | succ fuel ih =>
    intro g g' h
    unfold Solver.solveBacktracking at h
    cases hfind : Solver.findNextEmpty g with
    | none =>
      rw [hfind] at h
      simp only [Option.some.injEq] at h
      exact h ▸ (Solver.findNextEmpty_none_iff g).mp hfind
    | some rc =>
      rw [hfind] at h
      obtain ⟨r, c⟩ := rc
      exact Solver.tryCands_out ih _ g r c g' h

/-- A successful search from a rule-respecting grid returns a
rule-respecting grid. -/
theorem Solver.solveBacktracking_noDups :
    ∀ (fuel : Nat) (g g' : Grid), noDups g →
      Solver.solveBacktracking fuel g = some g' → noDups g' := by
  intro fuel
  induction fuel with
  | zero =>
    intro g g' _ h
    simp [Solver.solveBacktracking] at h
  | succ fuel ih =>
    intro g g' hnd h
    unfold Solver.solveBacktracking at h
    cases hfind : Solver.findNextEmpty g with
    | none =>
      rw [hfind] at h
      simp only [Option.some.injEq] at h
      exact h ▸ hnd
    | some rc =>
      rw [hfind] at h
      obtain ⟨r, c⟩ := rc
      exact Solver.tryCands_noDups ih _ g r c g' hnd h

/-- Inversion for a successful `solveGrid`: success always carries the
searched grid, which passed the final re-validation. -/
theorem Solver.solveGrid_solved_inv {g : Grid}
    (hs : (Solver.solveGrid g).solved = true) :
    ∃ g', Solver.solveGrid g = { solved := true, grid := some g', reason := none } ∧
      Solver.solveBacktracking 82 g = some g' ∧
      (Validator.validateGrid g').status = ValidationStatus.validComplete := by
  unfold Solver.solveGrid at hs ⊢
  split at hs
  · exact absurd hs (by simp)
  · rename_i hval
    split at hs
    · exact absurd hs (by simp)
    · rename_i x w hsb
      by_cases hvc : (Validator.validateGrid w).status ≠ ValidationStatus.validComplete
      · rw [if_pos hvc] at hs
        exact absurd hs (by simp)
      · rw [if_neg hvc] at hs
        rw [not_not] at hvc
        refine ⟨w, ?_, hsb, hvc⟩
        have hvc2 : ¬((Validator.validateGrid w).status ≠ ValidationStatus.validComplete) := by
          rw [hvc]
          simp
        rw [if_neg hval, if_neg hvc2]

/-! ## Claim theorems: solver (C1, C4, C8) -/

/-- C1: whenever `solveGrid` reports `solved:true`, the returned grid
re-validates as `ValidComplete` and agrees with the input grid on every
originally non-empty cell (clues are never altered). -/
theorem claim_C1_solver_soundness (g : Grid)
    (hs : (Solver.solveGrid g).solved = true) :
    ∃ g', (Solver.solveGrid g).grid = some g' ∧
      (Validator.validateGrid g').status = ValidationStatus.validComplete ∧
      ∀ r c : Fin 9, g r c ≠ 0 → g' r c = g r c := by
  obtain ⟨g', heq, hsb, hvc⟩ := Solver.solveGrid_solved_inv hs
  refine ⟨g', by rw [heq], hvc, ?_⟩
  exact Solver.solveBacktracking_extends 82 g g' hsb

/-- C4: `solveGrid` never reports `unsolvable` because the post-search
safety re-validation failed: every `unsolvable` result comes from an
exhausted search.  (The safety-check branch is unreachable: a successful
search from a non-`invalid` grid always re-validates as `ValidComplete`.) -/
theorem claim_C4_safety_check_unreachable (g : Grid)
    (hr : (Solver.solveGrid g).reason = some "unsolvable") :
    Solver.solveBacktracking 82 g = none := by
  unfold Solver.solveGrid at hr
  split at hr
  · rename_i hval
    exfalso
    simp only [Option.some.injEq] at hr
    exact absurd hr (by decide)
  · rename_i hval
    split at hr
    · rename_i x hsb
      exact hsb
    · rename_i x w hsb
      exfalso
      have hnd : noDups g := by
        by_contra hc
        exact hval ((Validator.status_invalid_iff g).mpr hc)
      have hndw : noDups w := Solver.solveBacktracking_noDups 82 g w hnd hsb
      have hcw : complete w := Solver.solveBacktracking_complete 82 g w hsb
      have hvc : (Validator.validateGrid w).status = ValidationStatus.validComplete :=
        (Validator.status_validComplete_iff w).mpr ⟨hndw, hcw⟩
      by_cases hvcn : (Validator.validateGrid w).status ≠ ValidationStatus.validComplete
      · exact hvcn hvc
      · rw [if_neg hvcn] at hr
        simp at hr

/-- C8: an `invalid` grid is rejected immediately: `solveGrid` returns
`solved:false` with reason `"invalid"`, no grid, and (being a pure
function of its input in this embedding) the input is untouched. -/
theorem claim_C8_invalid_rejected (g : Grid)
    (h : (Validator.validateGrid g).status = ValidationStatus.invalid) :
    Solver.solveGrid g =
      { solved := false, grid := none, reason := some "invalid" } := by
  unfold Solver.solveGrid
  rw [if_pos h]

/-! ## Claim theorem: validator classification (C2) -/

/-- C2: `validateGrid` reports `invalid` iff some row, column or box holds
a repeated non-empty digit; `valid-complete` iff there is no repeat and no
empty cell; `valid-incomplete` iff there is no repeat and at least one
empty cell.  (`noDups` quantifies only over non-empty values, so empty
cells never contribute to duplicate detection.) -/
theorem claim_C2_validator_classification (g : Grid) :
    ((Validator.validateGrid g).status = ValidationStatus.invalid ↔ ¬ noDups g) ∧
    ((Validator.validateGrid g).status = ValidationStatus.validComplete ↔
      noDups g ∧ ∀ r c : Fin 9, g r c ≠ 0) ∧
    ((Validator.validateGrid g).status = ValidationStatus.validIncomplete ↔
      noDups g ∧ ∃ r c : Fin 9, g r c = 0) := by
  refine ⟨Validator.status_invalid_iff g, Validator.status_validComplete_iff g, ?_⟩
  rw [Validator.status_validIncomplete_iff g]
  unfold complete
  constructor
  · intro ⟨hnd, hne⟩
    push_neg at hne
    exact ⟨hnd, hne⟩
  · intro ⟨hnd, hne⟩
    refine ⟨hnd, ?_⟩
    push_neg
    exact hne

/-! ## Concrete grids for witnesses and counterexamples -/

/-- A complete, rule-respecting grid (the classic example solution). -/
def gridComplete : Grid := ofRows [
  [5, 3, 4, 6, 7, 8, 9, 1, 2],
  [6, 7, 2, 1, 9, 5, 3, 4, 8],
  [1, 9, 8, 3, 4, 2, 5, 6, 7],
  [8, 5, 9, 7, 6, 1, 4, 2, 3],
  [4, 2, 6, 8, 5, 3, 7, 9, 1],
  [7, 1, 3, 9, 2, 4, 8, 5, 6],
  [9, 6, 1, 5, 3, 7, 2, 8, 4],
  [2, 8, 7, 4, 1, 9, 6, 3, 5],
  [3, 4, 5, 2, 8, 6, 1, 7, 9]]

/-- A structurally valid but unsolvable grid: cell `(0,0)` is empty, its
row already holds `2..9` and its column holds `1`, so no digit fits and
the search exhausts immediately. -/
def gridUnsat : Grid := ofRows [
  [0, 2, 3, 4, 5, 6, 7, 8, 9],
  [1, 0, 0, 0, 0, 0, 0, 0, 0],
  [0, 0, 0, 0, 0, 0, 0, 0, 0],
  [0, 0, 0, 0, 0, 0, 0, 0, 0],
  [0, 0, 0, 0, 0, 0, 0, 0, 0],
  [0, 0, 0, 0, 0, 0, 0, 0, 0],
  [0, 0, 0, 0, 0, 0, 0, 0, 0],
  [0, 0, 0, 0, 0, 0, 0, 0, 0],
  [0, 0, 0, 0, 0, 0, 0, 0, 0]]

/-- A grid whose row 0 repeats `5` and `3` (and box 0 repeats `5`). -/
def gridDup : Grid := ofRows [
  [5, 5, 3, 3, 0, 0, 0, 0, 0],
  [0, 0, 0, 0, 0, 0, 0, 0, 0],
  [0, 0, 0, 0, 0, 0, 0, 0, 0],
  [0, 0, 0, 0, 0, 0, 0, 0, 0],
  [0, 0, 0, 0, 0, 0, 0, 0, 0],
  [0, 0, 0, 0, 0, 0, 0, 0, 0],
  [0, 0, 0, 0, 0, 0, 0, 0, 0],
  [0, 0, 0, 0, 0, 0, 0, 0, 0],
  [0, 0, 0, 0, 0, 0, 0, 0, 0]]

/-- Only `(0,0)` is filled, with `5`. -/
def gridSingle5 : Grid := ofRows [
  [5, 0, 0, 0, 0, 0, 0, 0, 0],
  [0, 0, 0, 0, 0, 0, 0, 0, 0],
  [0, 0, 0, 0, 0, 0, 0, 0, 0],
  [0, 0, 0, 0, 0, 0, 0, 0, 0],
  [0, 0, 0, 0, 0, 0, 0, 0, 0],
  [0, 0, 0, 0, 0, 0, 0, 0, 0],
  [0, 0, 0, 0, 0, 0, 0, 0, 0],
  [0, 0, 0, 0, 0, 0, 0, 0, 0],
  [0, 0, 0, 0, 0, 0, 0, 0, 0]]

/-- Three empty cells in row 0 with 4 completions, distributed so that the
bounded counter's early exit overshoots its cap (see C5). -/
def gridOvershoot : Grid := ofRows [
  [0, 0, 0, 4, 5, 6, 7, 8, 9],
  [4, 5, 6, 9, 9, 9, 9, 9, 9],
  [7, 8, 9, 9, 9, 9, 9, 9, 9],
  [9, 2, 9, 9, 9, 9, 9, 9, 9],
  [9, 9, 9, 9, 9, 9, 9, 9, 9],
  [9, 9, 9, 9, 9, 9, 9, 9, 9],
  [9, 9, 9, 9, 9, 9, 9, 9, 9],
  [9, 9, 9, 9, 9, 9, 9, 9, 9],
  [9, 9, 9, 9, 9, 9, 9, 9, 9]]

/-- A completely filled grid that massively violates the Sudoku rules. -/
def gridAllFives : Grid := fun _ _ => 5

theorem claim_C1_witness :
    (Solver.solveGrid gridComplete).solved = true ∧
    ∃ g', (Solver.solveGrid gridComplete).grid = some g' ∧
      (Validator.validateGrid g').status = ValidationStatus.validComplete ∧
      ∀ r c : Fin 9, gridComplete r c ≠ 0 → g' r c = gridComplete r c :=
  ⟨by decide, claim_C1_solver_soundness gridComplete (by decide)⟩

theorem claim_C4_witness :
    (Solver.solveGrid gridUnsat).reason = some "unsolvable" ∧
    Solver.solveBacktracking 82 gridUnsat = none :=
  ⟨by decide, claim_C4_safety_check_unreachable gridUnsat (by decide)⟩

theorem claim_C8_witness :
    (Validator.validateGrid gridDup).status = ValidationStatus.invalid ∧
    Solver.solveGrid gridDup =
      { solved := false, grid := none, reason := some "invalid" } :=
  ⟨by decide, claim_C8_invalid_rejected gridDup (by decide)⟩

/-! ## Claim C6: the two placement checkers -/

/-- C6 counterexample: the solver's private `isValidPlacement` (cited in
the claim) rejects placing `5` at `(0,0)` on a grid whose only `5` sits at
`(0,0)` itself — no *other* cell of the three units holds `5`, yet the
check returns `false`, refuting the claimed "excluding the cell itself"
behaviour for this implementation. -/
theorem claim_C6_counterexample :
    Solver.isValidPlacement gridSingle5 0 0 5 = false ∧
    (∀ c' : Fin 9, c' ≠ 0 → gridSingle5 0 c' ≠ 5) ∧
    (∀ r' : Fin 9, r' ≠ 0 → gridSingle5 r' 0 ≠ 5) ∧
    (∀ r' c' : Fin 9, boxIdx r' c' = boxIdx 0 0 → ¬(r' = 0 ∧ c' = 0) →
      gridSingle5 r' c' ≠ 5) := by
  refine ⟨by decide, by decide, by decide, by decide⟩

/-- C6 amended: the validator copy's exported `isValidPlacement` behaves
exactly as claimed (false iff some *other* unit cell holds `v`); the
solver's private checker scans all 27 cells without excluding `(r, c)`
(false iff *some* unit cell holds `v`, the target included); the two agree
whenever the target cell is empty — the only situation in which the
solver invokes the check. -/
theorem claim_C6_amended (g : Grid) (r c : Fin 9) (v : Nat)
    (h1 : 1 ≤ v) (h9 : v ≤ 9) :
    (Sud3.isValidPlacement g r c v = false ↔ ¬ placeFree g r c v) ∧
    (Solver.isValidPlacement g r c v = false ↔ ¬ placeFreeAll g r c v) ∧
    (g r c = 0 → Solver.isValidPlacement g r c v = Sud3.isValidPlacement g r c v) := by
  have hv : v ≠ 0 := by omega
  refine ⟨?_, ?_, ?_⟩
  · rw [← Sud3.isValidPlacement_true_iff_s3 hv]
    cases h : Sud3.isValidPlacement g r c v <;> simp [h]
  · rw [← Solver.isValidPlacement_true_iff g r c v]
    cases h : Solver.isValidPlacement g r c v <;> simp [h]
  · intro h0
    rw [Bool.eq_iff_iff, Solver.isValidPlacement_true_iff,
      Sud3.isValidPlacement_true_iff_s3 hv]
    constructor
    · exact placeFreeAll.toFree
    · exact placeFree.toAll hv h0

theorem claim_C6_amended_witness :
    1 ≤ 5 ∧ 5 ≤ 9 ∧
    ((Sud3.isValidPlacement gridSingle5 1 1 5 = false ↔ ¬ placeFree gridSingle5 1 1 5) ∧
     (Solver.isValidPlacement gridSingle5 1 1 5 = false ↔ ¬ placeFreeAll gridSingle5 1 1 5) ∧
     (gridSingle5 1 1 = 0 →
       Solver.isValidPlacement gridSingle5 1 1 5 = Sud3.isValidPlacement gridSingle5 1 1 5)) :=
  ⟨by decide, by decide, claim_C6_amended gridSingle5 1 1 5 (by decide) (by decide)⟩

/-! ## Claim C7: issue ordering -/

/-- Rank of the unit kinds in the canonical report order. -/
def issueRank : IssueType → Nat
  | IssueType.row => 0
  | IssueType.column => 1
  | IssueType.box => 2

/-- Strict canonical order on issues: rows before columns before boxes,
then ascending unit index, then ascending duplicate value.  A `Pairwise`
chain in this order also forces each (unit, value) pair to occur at most
once. -/
def issueLt (a b : ValidationIssue) : Prop :=
  issueRank a.type < issueRank b.type ∨
  (a.type = b.type ∧ (a.index < b.index ∨ (a.index = b.index ∧ a.value < b.value)))

instance (a b : ValidationIssue) : Decidable (issueLt a b) := by
  unfold issueLt
  infer_instance

theorem mem_unit_part {t : IssueType} {f : Fin 9 → List Nat} {i : Fin 9}
    {x : ValidationIssue}
    (hx : x ∈ (f i).map (fun v => ValidationIssue.mk t i.val v)) :
    x.type = t ∧ x.index = i.val := by
  obtain ⟨v, _, rfl⟩ := List.mem_map.mp hx
  exact ⟨rfl, rfl⟩

/-- Each unit-kind block of the issue list is strictly ordered. -/
theorem pairwise_unit_part (t : IssueType) (f : Fin 9 → List Nat)
    (hsorted : ∀ i, (f i).Pairwise (· < ·)) :
    ((List.ofFn (fun i : Fin 9 =>
      (f i).map (fun v => ValidationIssue.mk t i.val v))).flatten).Pairwise issueLt := by
  rw [List.pairwise_flatten]
  constructor
  · intro l hl
    obtain ⟨i, rfl⟩ := (List.mem_ofFn _ _).mp hl
    rw [List.pairwise_map]
    refine (hsorted i).imp ?_
    intro a b hab
    exact Or.inr ⟨rfl, Or.inr ⟨rfl, hab⟩⟩
  · rw [List.ofFn_eq_map]
    rw [List.pairwise_map]
    refine (List.pairwise_lt_finRange 9).imp ?_
    intro i j hij x hx y hy
    obtain ⟨hxt, hxi⟩ := mem_unit_part hx
    obtain ⟨hyt, hyi⟩ := mem_unit_part hy
    refine Or.inr ⟨hxt.trans hyt.symm, Or.inl ?_⟩
    rw [hxi, hyi]
    exact hij

theorem mem_unit_block {t : IssueType} {f : Fin 9 → List Nat}
    {x : ValidationIssue}
    (hx : x ∈ (List.ofFn (fun i : Fin 9 =>
      (f i).map (fun v => ValidationIssue.mk t i.val v))).flatten) :
    x.type = t := by
  obtain ⟨l, hl, hxl⟩ := List.mem_flatten.mp hx
  obtain ⟨i, rfl⟩ := (List.mem_ofFn _ _).mp hl
  exact (mem_unit_part hxl).1

/-- The canonical validator's issue list is strictly ordered: rows first,
then columns, then boxes, ascending unit index, ascending values within a
unit. -/
theorem Validator.issuesOf_pairwise (g : Grid) :
    (Validator.issuesOf g).Pairwise issueLt := by
  unfold Validator.issuesOf
  rw [List.pairwise_append]
  refine ⟨?_, ?_, ?_⟩
  · rw [List.pairwise_append]
    refine ⟨?_, ?_, ?_⟩
    · exact pairwise_unit_part IssueType.row _
        (fun i => Validator.findDuplicates_strictSorted _)
    · exact pairwise_unit_part IssueType.column _
        (fun i => Validator.findDuplicates_strictSorted _)
    · intro a ha b hb
      exact Or.inl (by rw [mem_unit_block ha, mem_unit_block hb]; decide)
  · exact pairwise_unit_part IssueType.box _
      (fun i => Validator.findDuplicates_strictSorted _)
  · intro a ha b hb
    rcases List.mem_append.mp ha with ha | ha
    · exact Or.inl (by rw [mem_unit_block ha, mem_unit_block hb]; decide)
    · exact Or.inl (by rw [mem_unit_block ha, mem_unit_block hb]; decide)

/-- The issue list returned by the canonical `validateGrid`. -/
theorem Validator.validateGrid_issues (g : Grid) :
    (Validator.validateGrid g).issues = [] ∨
    (Validator.validateGrid g).issues = Validator.issuesOf g := by
  unfold Validator.validateGrid
  by_cases h : (Validator.issuesOf g).isEmpty
  · rw [if_pos h]
    exact Or.inl rfl
  · rw [if_neg h]
    exact Or.inr rfl

/-- Membership in one unit-kind block of the issue list: the issue for
value `v` at unit `i` is present exactly when `v` is among that unit's
reported duplicates. -/
theorem mem_block_iff (t : IssueType) (f : Fin 9 → List Nat) (i : Fin 9) (v : Nat) :
    (ValidationIssue.mk t i.val v) ∈
      (List.ofFn (fun j : Fin 9 =>
        (f j).map (fun w => ValidationIssue.mk t j.val w))).flatten ↔
    v ∈ f i := by
  rw [List.mem_flatten]
  constructor
  · rintro ⟨l, hl, hx⟩
    obtain ⟨j, rfl⟩ := (List.mem_ofFn _ _).mp hl
    obtain ⟨w, hw, heq⟩ := List.mem_map.mp hx
    rw [ValidationIssue.mk.injEq] at heq
    obtain ⟨-, hji, hwv⟩ := heq
    have hj : j = i := Fin.ext hji
    rw [← hwv, ← hj]
    exact hw
  · intro hv
    refine ⟨(f i).map (fun w => ValidationIssue.mk t i.val w), ?_, ?_⟩
    · exact (List.mem_ofFn _ _).mpr ⟨i, rfl⟩
    · exact List.mem_map.mpr ⟨v, hv, rfl⟩

/-- A row issue is listed exactly when the row's `findDuplicates` reports
its value. -/
theorem Validator.mem_issuesOf_row (g : Grid) (i : Fin 9) (v : Nat) :
    (ValidationIssue.mk IssueType.row i.val v) ∈ Validator.issuesOf g ↔
      v ∈ Validator.findDuplicates (Validator.getRow g i) := by
  unfold Validator.issuesOf
  rw [List.mem_append, List.mem_append]
  constructor
  · rintro ((h | h) | h)
    · exact (mem_block_iff _ _ i v).mp h
    · exact IssueType.noConfusion (mem_unit_block h)
    · exact IssueType.noConfusion (mem_unit_block h)
  · intro hv
    exact Or.inl (Or.inl ((mem_block_iff _ _ i v).mpr hv))

/-- A column issue is listed exactly when the column's `findDuplicates`
reports its value. -/
theorem Validator.mem_issuesOf_column (g : Grid) (i : Fin 9) (v : Nat) :
    (ValidationIssue.mk IssueType.column i.val v) ∈ Validator.issuesOf g ↔
      v ∈ Validator.findDuplicates (Validator.getColumn g i) := by
  unfold Validator.issuesOf
  rw [List.mem_append, List.mem_append]
  constructor
  · rintro ((h | h) | h)
    · exact IssueType.noConfusion (mem_unit_block h)
    · exact (mem_block_iff _ _ i v).mp h
    · exact IssueType.noConfusion (mem_unit_block h)
  · intro hv
    exact Or.inl (Or.inr ((mem_block_iff _ _ i v).mpr hv))

/-- A box issue is listed exactly when the box's `findDuplicates` reports
its value. -/
theorem Validator.mem_issuesOf_box (g : Grid) (i : Fin 9) (v : Nat) :
    (ValidationIssue.mk IssueType.box i.val v) ∈ Validator.issuesOf g ↔
      v ∈ Validator.findDuplicates (Validator.getBox g i) := by
  unfold Validator.issuesOf
  rw [List.mem_append, List.mem_append]
  constructor
  · rintro ((h | h) | h)
    · exact IssueType.noConfusion (mem_unit_block h)
    · exact IssueType.noConfusion (mem_unit_block h)
    · exact (mem_block_iff _ _ i v).mp h
  · intro hv
    exact Or.inr ((mem_block_iff _ _ i v).mpr hv)

/-- The issue list `validateGrid` returns has the same members as
`issuesOf` (the empty branch only triggers when `issuesOf` is itself
empty). -/
theorem Validator.mem_validateGrid_issues (g : Grid) (x : ValidationIssue) :
    x ∈ (Validator.validateGrid g).issues ↔ x ∈ Validator.issuesOf g := by
  unfold Validator.validateGrid
  by_cases h : (Validator.issuesOf g).isEmpty
  · rw [if_pos h]
    rw [List.isEmpty_iff] at h
    show x ∈ ([] : List ValidationIssue) ↔ x ∈ Validator.issuesOf g
    rw [h]
  · rw [if_neg h]

/-- C7 counterexample: the SUD-3 copy of `validateGrid` (cited in the
claim) reports row 0's duplicates as `5` then `3` — the order of first
repetition, not ascending value — so its issue list is not in the claimed
order. -/
theorem claim_C7_counterexample :
    (Sud3.validateGrid gridDup).issues =
      [{ type := IssueType.row, index := 0, value := 5 },
       { type := IssueType.row, index := 0, value := 3 },
       { type := IssueType.box, index := 0, value := 5 }] ∧
    ¬ (Sud3.validateGrid gridDup).issues.Pairwise issueLt := by
  refine ⟨by decide, by decide⟩

/-- C7 amended: for the canonical validator (`src/core/validator.ts`) the
claim holds in full: the issue list is non-empty exactly when the status
is `invalid`; it is strictly sorted in the canonical order — rows, then
columns, then boxes, ascending unit index, duplicate values ascending
within each unit; and the issue for unit kind `t`, unit index `i`, value
`v` is present exactly when `v` is a non-empty value occurring at least
twice in that unit — so every duplicated value yields an issue, and by
strictness of the order exactly one per unit. -/
theorem claim_C7_amended_canonical_order (g : Grid) :
    ((Validator.validateGrid g).issues ≠ [] ↔
      (Validator.validateGrid g).status = ValidationStatus.invalid) ∧
    (Validator.validateGrid g).issues.Pairwise issueLt ∧
    (∀ (i : Fin 9) (v : Nat),
      ({ type := IssueType.row, index := i.val, value := v } : ValidationIssue) ∈
          (Validator.validateGrid g).issues ↔
        v ≠ 0 ∧ 2 ≤ (Validator.getRow g i).count v) ∧
    (∀ (i : Fin 9) (v : Nat),
      ({ type := IssueType.column, index := i.val, value := v } : ValidationIssue) ∈
          (Validator.validateGrid g).issues ↔
        v ≠ 0 ∧ 2 ≤ (Validator.getColumn g i).count v) ∧
    (∀ (i : Fin 9) (v : Nat),
      ({ type := IssueType.box, index := i.val, value := v } : ValidationIssue) ∈
          (Validator.validateGrid g).issues ↔
        v ≠ 0 ∧ 2 ≤ (Validator.getBox g i).count v) := by
  refine ⟨?_, ?_, ?_, ?_, ?_⟩
  · rw [Validator.status_invalid_iff]
    unfold Validator.validateGrid
    by_cases h : (Validator.issuesOf g).isEmpty
    · rw [if_pos h]
      rw [List.isEmpty_iff] at h
      have hnd := (Validator.issuesOf_nil_iff g).mp h
      simp [hnd]
    · rw [if_neg h]
      rw [List.isEmpty_iff] at h
      have hnd := fun hd => h ((Validator.issuesOf_nil_iff g).mpr hd)
      simp only [ValidationResult.status]
      constructor
      · intro _
        exact hnd
      · intro _
        exact h
  · rcases Validator.validateGrid_issues g with h | h
    · rw [h]
      exact List.Pairwise.nil
    · rw [h]
      exact Validator.issuesOf_pairwise g
  · intro i v
    exact (Validator.mem_validateGrid_issues g _).trans
      ((Validator.mem_issuesOf_row g i v).trans
        (Validator.mem_findDuplicates _ v))
  · intro i v
    exact (Validator.mem_validateGrid_issues g _).trans
      ((Validator.mem_issuesOf_column g i v).trans
        (Validator.mem_findDuplicates _ v))
  · intro i v
    exact (Validator.mem_validateGrid_issues g _).trans
      ((Validator.mem_issuesOf_box g i v).trans
        (Validator.mem_findDuplicates _ v))

/-! ## PRNG of `unnamed/part_001` (C9) -/

namespace PrngJs

/-- One LCG step: `(Math.imul(1664525, state) + 1013904223) >>> 0`.
`Math.imul` is the product modulo 2³² (up to sign), the float addition is
exact below 2⁵³, and `>>> 0` normalizes to the unsigned value, so the step
is exactly `(1664525·s + 1013904223) mod 2³²`. -/
def nextState (s : Nat) : Nat := (1664525 * s + 1013904223) % 4294967296

/-- `let state = seed >>> 0`: ToUint32 of the integer seed, i.e. the
mathematical remainder mod 2³² (non-negative also for negative seeds). -/
def initState (seed : Int) : Nat := (seed % 4294967296).toNat

/-- The state register after `n` draws. -/
def stateAfter (seed : Int) : Nat → Nat
  | 0 => initState seed
  | n + 1 => nextState (stateAfter seed n)

/-- `nextInt(maxExclusive) = Math.floor(nextFloat() * maxExclusive)` with
`nextFloat() = nextUint32() / 2³²`; for the bounds in this program the
float computation is exact, giving `s' · max / 2³²` on the advanced
state `s'`. -/
def nextIntVal (s : Nat) (maxExclusive : Nat) : Nat :=
  nextState s * maxExclusive / 4294967296

theorem initState_lt (seed : Int) : initState seed < 4294967296 := by
  unfold initState
  have h1 : 0 ≤ seed % 4294967296 := Int.emod_nonneg seed (by norm_num)
  have h2 : seed % 4294967296 < 4294967296 := Int.emod_lt_of_pos seed (by norm_num)
  omega

theorem nextState_lt (s : Nat) : nextState s < 4294967296 :=
  Nat.mod_lt _ (by norm_num)

/-- The LCG step always flips the parity of the state, so no state — in
particular not `0` — is a fixed point. -/
theorem nextState_ne (s : Nat) : nextState s ≠ s := by
  intro h
  have hpar : nextState s % 2 = (s + 1) % 2 := by
    unfold nextState
    have hdvd : (2 : Nat) ∣ 4294967296 := by norm_num
    rw [Nat.mod_mod_of_dvd _ hdvd]
    have hmul : 1664525 * s = 2 * (832262 * s) + s := by ring
    omega
  omega

end PrngJs

/-- C9: `createPrng` accepts every integer seed (zero and negative
included): the seed is normalized into the generator's state range
`[0, 2³²)`, every reachable state stays in range, no reachable state is a
fixed point of the step (so a zero or negative seed is never stuck at a
degenerate state — the classic risk of a zero LCG state does not arise
because the increment is non-zero), and every bounded draw
`nextInt(m)` lands in `[0, m)`.  The draw sequence is a pure function of
the seed, so identical seeds yield identical sequences by construction. -/
theorem claim_C9_prng_seed_handling (seed : Int) :
    PrngJs.initState seed < 4294967296 ∧
    (∀ n, PrngJs.stateAfter seed n < 4294967296) ∧
    (∀ n, PrngJs.nextState (PrngJs.stateAfter seed n) ≠ PrngJs.stateAfter seed n) ∧
    (∀ m, 0 < m → ∀ n, PrngJs.nextIntVal (PrngJs.stateAfter seed n) m < m) := by
  refine ⟨PrngJs.initState_lt seed, ?_, ?_, ?_⟩
  · intro n
    cases n with
    | zero => exact PrngJs.initState_lt seed
    | succ n => exact PrngJs.nextState_lt _
  · intro n
    exact PrngJs.nextState_ne _
  · intro m hm n
    unfold PrngJs.nextIntVal
    have hs : PrngJs.nextState (PrngJs.stateAfter seed n) < 4294967296 :=
      PrngJs.nextState_lt _
    rw [Nat.div_lt_iff_lt_mul (by norm_num : (0:Nat) < 4294967296)]
    calc PrngJs.nextState (PrngJs.stateAfter seed n) * m
        < 4294967296 * m := by
          exact Nat.mul_lt_mul_of_lt_of_le hs (le_refl m) hm
      _ = m * 4294967296 := Nat.mul_comm _ _

theorem claim_C9_witness :
    PrngJs.initState (-7) < 4294967296 ∧
    PrngJs.stateAfter (-7) 2 < 4294967296 ∧
    PrngJs.nextState (PrngJs.stateAfter (-7) 2) ≠ PrngJs.stateAfter (-7) 2 ∧
    (0 < 3 ∧ PrngJs.nextIntVal (PrngJs.stateAfter (-7) 2) 3 < 3) :=
  ⟨(claim_C9_prng_seed_handling (-7)).1,
   (claim_C9_prng_seed_handling (-7)).2.1 2,
   (claim_C9_prng_seed_handling (-7)).2.2.1 2,
   by decide,
   (claim_C9_prng_seed_handling (-7)).2.2.2 3 (by decide) 2⟩

/-! ## Claim C10: the counter trusts its clues -/

theorem Sud4.countRec_succ (fuel maxCount : Nat) (g : Grid) :
    Sud4.countRec (fuel + 1) maxCount g =
      match Sud4.findEmptyCell g with
      | none => 1
      | some (r, c) =>
        Sud4.countLoop (Sud4.countRec fuel maxCount) g r c maxCount
          [1, 2, 3, 4, 5, 6, 7, 8, 9] 0 := rfl

/-- On a complete grid the counter returns `1` immediately, for any cap. -/
theorem Sud4.countSolutions_of_complete {g : Grid} (hc : complete g)
    (maxCount : Nat) : Sud4.countSolutions g maxCount = 1 := by
  unfold Sud4.countSolutions
  rw [show (82 : Nat) = 81 + 1 from rfl, Sud4.countRec_succ]
  have hfind : Sud4.findEmptyCell g = none := by
    rw [Sud4.findEmptyCell_eq]
    exact (Solver.findNextEmpty_none_iff g).mpr hc
  rw [hfind]

/-- C10: `countSolutions` never validates its clues: on a completely
filled grid the very first empty-cell scan fails and the count is `1`,
whatever `maxCount` is and however invalid the grid may be. -/
theorem claim_C10_full_grid_counts_one (g : Grid) (hc : complete g)
    (maxCount : Nat) : Sud4.countSolutions g maxCount = 1 :=
  Sud4.countSolutions_of_complete hc maxCount

theorem claim_C10_witness :
    complete gridAllFives ∧ Sud4.countSolutions gridAllFives 2 = 1 :=
  ⟨by decide, claim_C10_full_grid_counts_one gridAllFives (by decide) 2⟩

/-! ## Claim C5: bounded counting versus the true solution count -/

/-- The candidate loop of the *uncapped* reference counter: identical to
`Sud4.countLoop` with the early-exit test removed. -/
def Sud4.countAllLoop (rec : Grid → Nat) (g : Grid) (r c : Fin 9) :
    List Nat → Nat → Nat
  | [], count => count
  | v :: vs, count =>
    if Sud3.isValidPlacement g r c v then
      Sud4.countAllLoop rec g r c vs (count + rec (setCell g r c v))
    else Sud4.countAllLoop rec g r c vs count

/-- The uncapped reference counter: what `countSolutionsRecursive` would
return with `maxCount = ∞`. -/
def Sud4.countAll : Nat → Grid → Nat
  | 0, _ => 0
  | fuel + 1, g =>
    match Sud4.findEmptyCell g with
    | none => 1
    | some (r, c) =>
      Sud4.countAllLoop (Sud4.countAll fuel) g r c [1, 2, 3, 4, 5, 6, 7, 8, 9] 0

/-- A `Fin 10`-valued table viewed as a grid. -/
def toGrid (h : Fin 9 → Fin 9 → Fin 10) : Grid := fun r c => (h r c).val

/-- `h` is a complete, rule-respecting, in-range assignment extending the
clues of `g`. -/
def isSolutionOf (g : Grid) (h : Fin 9 → Fin 9 → Fin 10) : Prop :=
  extendsGrid g (toGrid h) ∧ complete (toGrid h) ∧ noDups (toGrid h)

instance (g : Grid) : DecidablePred (isSolutionOf g) := by
  intro h
  unfold isSolutionOf extendsGrid
  infer_instance

/-- All solutions of `g`, as a finite set of `Fin 10` tables. -/
def solSet (g : Grid) : Finset (Fin 9 → Fin 9 → Fin 10) :=
  Finset.univ.filter (isSolutionOf g)

/-- The true number of complete assignments: complete rule-respecting
grids with digit cells that agree with `g` on every clue. -/
def trueCount (g : Grid) : Nat := (solSet g).card

theorem mem_solSet {g : Grid} {h : Fin 9 → Fin 9 → Fin 10} :
    h ∈ solSet g ↔ isSolutionOf g h := by
  unfold solSet
  simp

/-- A complete in-range rule-respecting grid is its own unique solution. -/
theorem trueCount_of_complete {g : Grid} (hnd : noDups g) (hir : inRange g)
    (hc : complete g) : trueCount g = 1 := by
  unfold trueCount
  have hmem : solSet g = {fun r c => (⟨g r c, by
      have := hir r c
      omega⟩ : Fin 10)} := by
    ext h
    rw [mem_solSet, Finset.mem_singleton]
    constructor
    · intro ⟨hext, _, _⟩
      funext r c
      apply Fin.ext
      show (h r c).val = g r c
      exact hext r c (hc r c)
    · intro hh
      subst hh
      have htg : toGrid (fun r c => (⟨g r c, by
          have := hir r c
          omega⟩ : Fin 10)) = g := by
        funext r c
        rfl
      rw [isSolutionOf, htg]
      exact ⟨extendsGrid_refl g, hc, hnd⟩
  rw [hmem]
  exact Finset.card_singleton _

/-- Extending a placement: the solutions of `setCell g r c v` are exactly
the solutions of `g` whose value at `(r, c)` is `v`. -/
theorem isSolutionOf_setCell_iff {g : Grid} {r c : Fin 9} {v : Nat}
    (h0 : g r c = 0) (hv : v ≠ 0) (h : Fin 9 → Fin 9 → Fin 10) :
    isSolutionOf (setCell g r c v) h ↔ isSolutionOf g h ∧ (h r c).val = v := by
  unfold isSolutionOf
  constructor
  · intro ⟨hext, hcomp, hnd⟩
    have hrc : (h r c).val = v := by
      have := hext r c (by rw [setCell_same]; exact hv)
      rw [setCell_same] at this
      exact this
    refine ⟨⟨?_, hcomp, hnd⟩, hrc⟩
    intro r' c' hne
    have hne' : ¬(r' = r ∧ c' = c) := by
      intro ⟨h1, h2⟩
      rw [h1, h2] at hne
      exact hne h0
    have := hext r' c' (by rw [setCell_other _ hne']; exact hne)
    rw [setCell_other _ hne'] at this
    exact this
  · intro ⟨⟨hext, hcomp, hnd⟩, hrc⟩
    refine ⟨?_, hcomp, hnd⟩
    intro r' c' hne
    by_cases hne' : r' = r ∧ c' = c
    · rw [hne'.1, hne'.2, setCell_same]
      exact hrc
    · rw [setCell_other _ hne'] at hne ⊢
      exact hext r' c' hne

set_option linter.constructorNameAsVariable false in
/-- A placement rejected by the checker admits no solutions. -/
theorem solSet_empty_of_invalid {g : Grid} {r c : Fin 9} {v : Nat}
    (h0 : g r c = 0) (hv : v ≠ 0)
    (hchk : Sud3.isValidPlacement g r c v = false) :
    solSet (setCell g r c v) = ∅ := by
  rw [Finset.eq_empty_iff_forall_not_mem]
  intro h hmem
  rw [mem_solSet, isSolutionOf_setCell_iff h0 hv] at hmem
  obtain ⟨⟨hext, hcomp, hnd⟩, hrc⟩ := hmem
  have hnfree : ¬ placeFree g r c v := by
    intro hfree
    rw [← Sud3.isValidPlacement_true_iff_s3 hv] at hfree
    rw [hchk] at hfree
    exact absurd hfree (by simp)
  apply hnfree
  refine ⟨?_, ?_, ?_⟩
  · intro c' hc' hgv
    have hh : toGrid h r c' = v := by
      rw [hext r c' (by rw [hgv]; exact hv), hgv]
    have hhrc : toGrid h r c = v := hrc
    have := hnd.1 r c' c hc' (by rw [hh]; exact hv)
    rw [hh, hhrc] at this
    exact this rfl
  · intro r' hr' hgv
    have hh : toGrid h r' c = v := by
      rw [hext r' c (by rw [hgv]; exact hv), hgv]
    have hhrc : toGrid h r c = v := hrc
    have := hnd.2.1 r' r c hr' (by rw [hh]; exact hv)
    rw [hh, hhrc] at this
    exact this rfl
  · intro r' c' hb hne hgv
    have hh : toGrid h r' c' = v := by
      rw [hext r' c' (by rw [hgv]; exact hv), hgv]
    have hhrc : toGrid h r c = v := hrc
    have hnep : (r', c') ≠ (r, c) := by
      intro hp
      rw [Prod.mk.injEq] at hp
      exact hne hp
    have := hnd.2.2 r' c' r c hnep hb (by rw [hh]; exact hv)
    rw [hh, hhrc] at this
    exact this rfl

theorem Sud4.countAllLoop_eq_sum (rec : Grid → Nat) (g : Grid) (r c : Fin 9) :
    ∀ (vs : List Nat) (acc : Nat),
      Sud4.countAllLoop rec g r c vs acc =
        acc + ((vs.filter (fun v => Sud3.isValidPlacement g r c v)).map
          (fun v => rec (setCell g r c v))).sum := by
  intro vs
  induction vs with
  | nil =>
    intro acc
    simp [Sud4.countAllLoop]
  | cons v vs ih =>
    intro acc
    by_cases hchk : Sud3.isValidPlacement g r c v
    · rw [show Sud4.countAllLoop rec g r c (v :: vs) acc =
          Sud4.countAllLoop rec g r c vs (acc + rec (setCell g r c v)) by
        simp [Sud4.countAllLoop, hchk]]
      rw [ih]
      rw [List.filter_cons_of_pos (by simpa using hchk)]
      simp [Nat.add_assoc]
    · rw [show Sud4.countAllLoop rec g r c (v :: vs) acc =
          Sud4.countAllLoop rec g r c vs acc by
        simp [Sud4.countAllLoop, hchk]]
      rw [ih]
      rw [List.filter_cons_of_neg (by simpa using hchk)]

theorem Sud4.countAllLoop_ge (rec : Grid → Nat) (g : Grid) (r c : Fin 9)
    (vs : List Nat) (acc : Nat) : acc ≤ Sud4.countAllLoop rec g r c vs acc := by
  rw [Sud4.countAllLoop_eq_sum]
  omega

/-- The capped loop stays below the uncapped loop. -/
theorem Sud4.countLoop_le {rec₁ rec₂ : Grid → Nat}
    (hrec : ∀ h, rec₁ h ≤ rec₂ h) (g : Grid) (r c : Fin 9) (m : Nat) :
    ∀ (vs : List Nat) (acc acc' : Nat), acc ≤ acc' →
      Sud4.countLoop rec₁ g r c m vs acc ≤ Sud4.countAllLoop rec₂ g r c vs acc' := by
  intro vs
  induction vs with
  | nil =>
    intro acc acc' hacc
    simpa [Sud4.countLoop, Sud4.countAllLoop] using hacc
  | cons v vs ih =>
    intro acc acc' hacc
    by_cases hchk : Sud3.isValidPlacement g r c v
    · rw [show Sud4.countLoop rec₁ g r c m (v :: vs) acc =
          (if m ≤ acc + rec₁ (setCell g r c v) then acc + rec₁ (setCell g r c v)
           else Sud4.countLoop rec₁ g r c m vs (acc + rec₁ (setCell g r c v))) by
        simp [Sud4.countLoop, hchk]]
      rw [show Sud4.countAllLoop rec₂ g r c (v :: vs) acc' =
          Sud4.countAllLoop rec₂ g r c vs (acc' + rec₂ (setCell g r c v)) by
        simp [Sud4.countAllLoop, hchk]]
      have hle : acc + rec₁ (setCell g r c v) ≤ acc' + rec₂ (setCell g r c v) :=
        Nat.add_le_add hacc (hrec _)
      by_cases hcap : m ≤ acc + rec₁ (setCell g r c v)
      · rw [if_pos hcap]
        exact le_trans hle (Sud4.countAllLoop_ge _ _ _ _ _ _)
      · rw [if_neg hcap]
        exact ih _ _ hle
    · rw [show Sud4.countLoop rec₁ g r c m (v :: vs) acc =
          Sud4.countLoop rec₁ g r c m vs acc by
        simp [Sud4.countLoop, hchk]]
      rw [show Sud4.countAllLoop rec₂ g r c (v :: vs) acc' =
          Sud4.countAllLoop rec₂ g r c vs acc' by
        simp [Sud4.countAllLoop, hchk]]
      exact ih _ _ hacc

/-- The capped counter never exceeds the uncapped one. -/
theorem Sud4.countRec_le_countAll :
    ∀ (fuel m : Nat) (g : Grid), Sud4.countRec fuel m g ≤ Sud4.countAll fuel g := by
  intro fuel
  induction fuel with
  | zero =>
    intro m g
    simp [Sud4.countRec, Sud4.countAll]
  | succ fuel ih =>
    intro m g
    rw [Sud4.countRec_succ]
    rw [show Sud4.countAll (fuel + 1) g =
        (match Sud4.findEmptyCell g with
         | none => 1
         | some (r, c) =>
           Sud4.countAllLoop (Sud4.countAll fuel) g r c [1, 2, 3, 4, 5, 6, 7, 8, 9] 0)
        from rfl]
    cases hfind : Sud4.findEmptyCell g with
    | none => exact le_refl 1
    | some rc =>
      obtain ⟨r, c⟩ := rc
      exact Sud4.countLoop_le (ih m) g r c m _ 0 0 (le_refl 0)

/-- Either the capped loop never hits the cap — and then it agrees with
the uncapped loop — or its result is at least the cap. -/
theorem Sud4.countLoop_dich {rec₁ rec₂ : Grid → Nat} {m : Nat}
    (hdich : ∀ h, rec₁ h = rec₂ h ∨ m ≤ rec₁ h) (g : Grid) (r c : Fin 9) :
    ∀ (vs : List Nat) (acc : Nat),
      Sud4.countLoop rec₁ g r c m vs acc = Sud4.countAllLoop rec₂ g r c vs acc ∨
      m ≤ Sud4.countLoop rec₁ g r c m vs acc := by
  intro vs
  induction vs with
  | nil =>
    intro acc
    exact Or.inl (by simp [Sud4.countLoop, Sud4.countAllLoop])
  | cons v vs ih =>
    intro acc
    by_cases hchk : Sud3.isValidPlacement g r c v
    · rw [show Sud4.countLoop rec₁ g r c m (v :: vs) acc =
          (if m ≤ acc + rec₁ (setCell g r c v) then acc + rec₁ (setCell g r c v)
           else Sud4.countLoop rec₁ g r c m vs (acc + rec₁ (setCell g r c v))) by
        simp [Sud4.countLoop, hchk]]
      rw [show Sud4.countAllLoop rec₂ g r c (v :: vs) acc =
          Sud4.countAllLoop rec₂ g r c vs (acc + rec₂ (setCell g r c v)) by
        simp [Sud4.countAllLoop, hchk]]
      by_cases hcap : m ≤ acc + rec₁ (setCell g r c v)
      · rw [if_pos hcap]
        exact Or.inr hcap
      · rw [if_neg hcap]
        have heq : rec₁ (setCell g r c v) = rec₂ (setCell g r c v) := by
          rcases hdich (setCell g r c v) with h | h
          · exact h
          · omega
        rw [← heq]
        exact ih _
    · rw [show Sud4.countLoop rec₁ g r c m (v :: vs) acc =
          Sud4.countLoop rec₁ g r c m vs acc by
        simp [Sud4.countLoop, hchk]]
      rw [show Sud4.countAllLoop rec₂ g r c (v :: vs) acc =
          Sud4.countAllLoop rec₂ g r c vs acc by
        simp [Sud4.countAllLoop, hchk]]
      exact ih _

theorem Sud4.countRec_dich :
    ∀ (fuel m : Nat) (g : Grid),
      Sud4.countRec fuel m g = Sud4.countAll fuel g ∨ m ≤ Sud4.countRec fuel m g := by
  intro fuel
  induction fuel with
  | zero =>
    intro m g
    exact Or.inl (by simp [Sud4.countRec, Sud4.countAll])
  | succ fuel ih =>
    intro m g
    rw [Sud4.countRec_succ]
    rw [show Sud4.countAll (fuel + 1) g =
        (match Sud4.findEmptyCell g with
         | none => 1
         | some (r, c) =>
           Sud4.countAllLoop (Sud4.countAll fuel) g r c [1, 2, 3, 4, 5, 6, 7, 8, 9] 0)
        from rfl]
    cases hfind : Sud4.findEmptyCell g with
    | none => exact Or.inl rfl
    | some rc =>
      obtain ⟨r, c⟩ := rc
      exact Sud4.countLoop_dich (ih m) g r c _ 0


set_option linter.constructorNameAsVariable false
set_option maxRecDepth 4000

theorem Sud4.countAll_succ_none {fuel : Nat} {g : Grid}
    (hfind : Sud4.findEmptyCell g = none) : Sud4.countAll (fuel + 1) g = 1 := by
  show (match Sud4.findEmptyCell g with
    | none => 1
    | some (r, c) =>
      Sud4.countAllLoop (Sud4.countAll fuel) g r c [1, 2, 3, 4, 5, 6, 7, 8, 9] 0) = 1
  rw [hfind]

theorem Sud4.countAll_succ_some {fuel : Nat} {g : Grid} {r c : Fin 9}
    (hfind : Sud4.findEmptyCell g = some (r, c)) :
    Sud4.countAll (fuel + 1) g =
      Sud4.countAllLoop (Sud4.countAll fuel) g r c [1, 2, 3, 4, 5, 6, 7, 8, 9] 0 := by
  show (match Sud4.findEmptyCell g with
    | none => 1
    | some (r, c) =>
      Sud4.countAllLoop (Sud4.countAll fuel) g r c [1, 2, 3, 4, 5, 6, 7, 8, 9] 0) = _
  rw [hfind]

theorem trueCount_partition {g : Grid} {r c : Fin 9} (h0 : g r c = 0) :
    trueCount g =
      (([1, 2, 3, 4, 5, 6, 7, 8, 9] : List Nat).map
        (fun v => trueCount (setCell g r c v))).sum := by
  have hfib := Finset.card_eq_sum_card_fiberwise
    (f := fun h : Fin 9 → Fin 9 → Fin 10 => (h r c).val)
    (s := solSet g) (t := Finset.range 10)
    (fun x _ => Finset.mem_range.mpr (x r c).isLt)
  have hzero : ((solSet g).filter (fun h => (h r c).val = 0)).card = 0 := by
    rw [Finset.card_eq_zero, Finset.filter_eq_empty_iff]
    intro h hmem
    rw [mem_solSet] at hmem
    exact hmem.2.1 r c
  have hv : ∀ v : Nat, v ≠ 0 →
      ((solSet g).filter (fun h => (h r c).val = v)).card =
        trueCount (setCell g r c v) := by
    intro v hvne
    have hsets : (solSet g).filter (fun h => (h r c).val = v) =
        solSet (setCell g r c v) := by
      unfold solSet
      rw [Finset.filter_filter]
      apply Finset.filter_congr
      intro h _
      exact (isSolutionOf_setCell_iff h0 hvne h).symm
    rw [trueCount, hsets]
  beta_reduce at hfib
  have hne : ∀ n : Nat, n + 1 ≠ 0 := fun n => Nat.succ_ne_zero n
  calc trueCount g = (solSet g).card := rfl
    _ = ∑ b ∈ Finset.range 10, ((solSet g).filter (fun a => (a r c).val = b)).card :=
      hfib
    _ = (List.map (fun v => trueCount (setCell g r c v))
        [1, 2, 3, 4, 5, 6, 7, 8, 9]).sum := by
      simp only [Finset.sum_range_succ, Finset.sum_range_zero]
      rw [hzero, hv 1 (hne 0), hv 2 (hne 1), hv 3 (hne 2), hv 4 (hne 3),
        hv 5 (hne 4), hv 6 (hne 5), hv 7 (hne 6), hv 8 (hne 7), hv 9 (hne 8)]
      repeat rw [List.map_cons]
      rw [List.map_nil]
      repeat rw [List.sum_cons]
      rw [List.sum_nil]
      repeat rw [Nat.zero_add]
      rw [Nat.add_zero]
      repeat rw [← Nat.add_assoc]

theorem sum_filter_eq_sum {p : Nat → Bool} {f : Nat → Nat} :
    ∀ (l : List Nat), (∀ v ∈ l, p v = false → f v = 0) →
      ((l.filter p).map f).sum = (l.map f).sum := by
  intro l
  induction l with
  | nil => simp
  | cons v vs ih =>
    intro h
    by_cases hp : p v
    · rw [List.filter_cons_of_pos hp]
      rw [List.map_cons, List.map_cons, List.sum_cons, List.sum_cons]
      rw [ih (fun w hw => h w (List.mem_cons_of_mem v hw))]
    · rw [List.filter_cons_of_neg (by simpa using hp)]
      rw [List.map_cons, List.sum_cons]
      rw [ih (fun w hw => h w (List.mem_cons_of_mem v hw))]
      rw [h v (List.mem_cons_self v vs) (by simpa using hp)]
      rw [Nat.zero_add]

theorem Sud4.countAll_eq_trueCount :
    ∀ (fuel : Nat) (g : Grid), numEmpty g < fuel → noDups g → inRange g →
      Sud4.countAll fuel g = trueCount g := by
  intro fuel
  induction fuel with
  | zero =>
    intro g hfuel
    omega
  | succ fuel ih =>
    intro g hfuel hnd hir
    cases hfind : Sud4.findEmptyCell g with
    | none =>
      have hc : complete g := (Solver.findNextEmpty_none_iff g).mp
        (by rw [← Sud4.findEmptyCell_eq]; exact hfind)
      rw [Sud4.countAll_succ_none hfind]
      exact (trueCount_of_complete hnd hir hc).symm
    | some rc =>
      obtain ⟨r, c⟩ := rc
      have h0 : g r c = 0 := Solver.findNextEmpty_some_empty
        (by rw [← Sud4.findEmptyCell_eq]; exact hfind)
      rw [Sud4.countAll_succ_some hfind, Sud4.countAllLoop_eq_sum, Nat.zero_add]
      have hmem_ne : ∀ v, v ∈ ([1, 2, 3, 4, 5, 6, 7, 8, 9] : List Nat) →
          v ≠ 0 ∧ v ≤ 9 := by
        intro v hvmem
        simp only [List.mem_cons, List.not_mem_nil, or_false] at hvmem
        rcases hvmem with rfl | rfl | rfl | rfl | rfl | rfl | rfl | rfl | rfl
          <;> omega
      have hmap : ((([1, 2, 3, 4, 5, 6, 7, 8, 9] : List Nat).filter
            (fun v => Sud3.isValidPlacement g r c v)).map
            (fun v => Sud4.countAll fuel (setCell g r c v))) =
          ((([1, 2, 3, 4, 5, 6, 7, 8, 9] : List Nat).filter
            (fun v => Sud3.isValidPlacement g r c v)).map
            (fun v => trueCount (setCell g r c v))) := by
        apply List.map_congr_left
        intro v hvf
        have hvl := List.mem_of_mem_filter hvf
        have hchk := List.of_mem_filter hvf
        obtain ⟨hvne, hvle⟩ := hmem_ne v hvl
        have hfree : placeFree g r c v :=
          (Sud3.isValidPlacement_true_iff_s3 hvne).mp (by simpa using hchk)
        have hnd' : noDups (setCell g r c v) := noDups_setCell hnd hfree
        have hir' : inRange (setCell g r c v) := by
          intro r' c'
          by_cases hp : r' = r ∧ c' = c
          · rw [setCell_at hp.1 hp.2]
            exact hvle
          · rw [setCell_other _ hp]
            exact hir r' c'
        have hnum : numEmpty (setCell g r c v) < fuel := by
          have := numEmpty_setCell h0 hvne
          omega
        exact ih (setCell g r c v) hnum hnd' hir'
      rw [hmap]
      have hzeros : ∀ v ∈ ([1, 2, 3, 4, 5, 6, 7, 8, 9] : List Nat),
          (Sud3.isValidPlacement g r c v : Bool) = false →
          trueCount (setCell g r c v) = 0 := by
        intro v hvl hchk
        obtain ⟨hvne, _⟩ := hmem_ne v hvl
        rw [trueCount, solSet_empty_of_invalid h0 hvne hchk]
        rw [Finset.card_empty]
      rw [sum_filter_eq_sum _ hzeros]
      exact (trueCount_partition h0).symm

/-- C5 counterexample: with `maxCount = 2` the counter can return `3`.
After a first branch that contributes exactly one solution, the next
branch is only aborted once its own running count has reached the cap, so
the totals add up beyond `maxCount` — the returned value is *not* "at
most maxCount". -/
theorem claim_C5_counterexample :
    1 ≤ 2 ∧ Sud4.countSolutions gridOvershoot 2 = 3 ∧
      ¬ Sud4.countSolutions gridOvershoot 2 ≤ 2 := by
  refine ⟨by decide, by decide, by decide⟩

/-- C5 amended: `countSolutions(g, maxCount)` aborts early once the
running count reaches `maxCount`, and for a rule-respecting grid of
digit cells: the result never exceeds the true number of complete
assignments; it equals that number whenever it is strictly below
`maxCount`; and it is at least `maxCount` otherwise.  The result may
however exceed `maxCount` itself (see the counterexample). -/
theorem claim_C5_amended (g : Grid) (hnd : noDups g) (hir : inRange g)
    (m : Nat) (_hm : 1 ≤ m) :
    Sud4.countSolutions g m ≤ trueCount g ∧
    (trueCount g < m → Sud4.countSolutions g m = trueCount g) ∧
    (m ≤ trueCount g → m ≤ Sud4.countSolutions g m) := by
  have hfuel : numEmpty g < 82 := by
    have := numEmpty_le g
    omega
  have hall : Sud4.countAll 82 g = trueCount g :=
    Sud4.countAll_eq_trueCount 82 g hfuel hnd hir
  have hle := Sud4.countRec_le_countAll 82 m g
  have hdich := Sud4.countRec_dich 82 m g
  unfold Sud4.countSolutions
  refine ⟨?_, ?_, ?_⟩
  · rw [← hall]
    exact hle
  · intro hlt
    rcases hdich with h | h
    · rw [h, hall]
    · have hmt : m ≤ trueCount g := le_trans h (le_of_le_of_eq hle hall)
      exact absurd hlt (Nat.not_lt.mpr hmt)
  · intro hge
    rcases hdich with h | h
    · rw [h, hall]
      exact hge
    · exact h

theorem claim_C5_amended_witness :
    noDups gridComplete ∧ inRange gridComplete ∧ 1 ≤ 2 ∧
    (Sud4.countSolutions gridComplete 2 ≤ trueCount gridComplete ∧
     (trueCount gridComplete < 2 →
       Sud4.countSolutions gridComplete 2 = trueCount gridComplete) ∧
     (2 ≤ trueCount gridComplete → 2 ≤ Sud4.countSolutions gridComplete 2)) :=
  ⟨by decide, by decide, by decide,
   claim_C5_amended gridComplete (by decide) (by decide) 2 (by decide)⟩

/-! ## PRNG used by the generator (C3) -/

namespace CorePrng

/-- Modelled from the spec: the generator imports `createPrng` from
`src/core/prng.ts`, which is not among the sources; §4.5 specifies a
linear-congruential generator `state = (a·state + c) mod m` with fixed
constants, seeded from the caller's integer normalized into the state
range.  The constants of the sibling implementation (`unnamed/part_001`)
are used. -/
def step (s : Nat) : Nat := (1664525 * s + 1013904223) % 4294967296

/-- Modelled from the spec: seed normalization into the state range. -/
def initState (seed : Int) : Nat := (seed % 4294967296).toNat

/-- Modelled from the spec: the bounded draw `nextInt(n)` produces a value
in `[0, n)` from the advanced state; returns the drawn value and the new
state. -/
def nextIntDraw (s n : Nat) : Nat × Nat := (step s * n / 4294967296, step s)

/-- Modelled from the spec: the generator's two-argument
`nextInt(min, max)` draws a clue target within the band `[min, max]`. -/
def nextIntMinMax (s lo hi : Nat) : Nat × Nat :=
  let d := nextIntDraw s (hi - lo + 1)
  (lo + d.1, d.2)

/-- Swap of two list positions (no-op when an index is out of range). -/
def listSwap {α : Type} (a : List α) (i j : Nat) : List α :=
  match a.get? i, a.get? j with
  | some vi, some vj => (a.set i vj).set j vi
  | _, _ => a

/-- Modelled from the spec: Fisher–Yates — iterate `i` from the last index
down to 1, swap index `i` with a drawn index in `[0, i]`.  The counter `k`
is the current index `i`. -/
def shuffleAux {α : Type} : List α → Nat → Nat → List α × Nat
  | a, s, 0 => (a, s)
  | a, s, k + 1 =>
    let d := nextIntDraw s (k + 2)
    shuffleAux (listSwap a (k + 1) d.1) d.2 k

/-- Modelled from the spec: `shuffle(sequence)` permutes the list in
place using the bounded draw; returns the shuffled list and final state. -/
def shuffle {α : Type} (a : List α) (s : Nat) : List α × Nat :=
  shuffleAux a s (a.length - 1)

theorem shuffleAux_zero {α : Type} (a : List α) (s : Nat) :
    shuffleAux a s 0 = (a, s) := rfl

theorem shuffleAux_succ {α : Type} (a : List α) (s k : Nat) :
    shuffleAux a s (k + 1) =
      shuffleAux (listSwap a (k + 1) (nextIntDraw s (k + 2)).1)
        (nextIntDraw s (k + 2)).2 k := rfl

theorem nextIntDraw_fst_lt (s : Nat) {n : Nat} (hn : 0 < n) :
    (nextIntDraw s n).1 < n := by
  show step s * n / 4294967296 < n
  have hs : step s < 4294967296 := Nat.mod_lt _ (by norm_num)
  rw [Nat.div_lt_iff_lt_mul (by norm_num : (0:Nat) < 4294967296)]
  calc step s * n < 4294967296 * n := Nat.mul_lt_mul_of_lt_of_le hs (le_refl n) hn
    _ = n * 4294967296 := Nat.mul_comm _ _

/-- Shuffling a 3-element list of `0,1,2` always yields a permutation of
`[0,1,2]`, whatever the PRNG state. -/
theorem shuffle3_perm (s : Nat) :
    ((shuffle ([0, 1, 2] : List Nat) s).1).Perm [0, 1, 2] := by
  show ((shuffleAux ([0, 1, 2] : List Nat) s 2).1).Perm [0, 1, 2]
  rw [show (2 : Nat) = 1 + 1 from rfl, shuffleAux_succ]
  have hj1 : (nextIntDraw s (1 + 2)).1 < 3 := nextIntDraw_fst_lt s (by norm_num)
  set j1 := (nextIntDraw s (1 + 2)).1 with hj1def
  set s1 := (nextIntDraw s (1 + 2)).2 with hs1def
  clear_value j1 s1
  rw [show (1 : Nat) = 0 + 1 from rfl, shuffleAux_succ]
  have hj2 : (nextIntDraw s1 (0 + 2)).1 < 2 := nextIntDraw_fst_lt s1 (by norm_num)
  set j2 := (nextIntDraw s1 (0 + 2)).1 with hj2def
  set s2 := (nextIntDraw s1 (0 + 2)).2 with hs2def
  clear_value j2 s2
  rw [shuffleAux_zero]
  show (listSwap (listSwap ([0, 1, 2] : List Nat) (1 + 1) j1) (0 + 1) j2).Perm [0, 1, 2]
  interval_cases j1 <;> interval_cases j2 <;> decide

end CorePrng

/-! ## Generator (`src/core/generator.ts`, C3) -/

namespace Generator

/-- The base solved pattern of `createSolvedGrid`. -/
def baseGrid : Grid := ofRows [
  [1, 2, 3, 4, 5, 6, 7, 8, 9],
  [4, 5, 6, 7, 8, 9, 1, 2, 3],
  [7, 8, 9, 1, 2, 3, 4, 5, 6],
  [2, 3, 4, 5, 6, 7, 8, 9, 1],
  [5, 6, 7, 8, 9, 1, 2, 3, 4],
  [8, 9, 1, 2, 3, 4, 5, 6, 7],
  [3, 4, 5, 6, 7, 8, 9, 1, 2],
  [6, 7, 8, 9, 1, 2, 3, 4, 5],
  [9, 1, 2, 3, 4, 5, 6, 7, 8]]

/-- Row re-indexing: the transformed grid reads row `ρ r` of `g`. -/
def mapRows (g : Grid) (ρ : Fin 9 → Fin 9) : Grid := fun r c => g (ρ r) c

/-- Column re-indexing. -/
def mapCols (g : Grid) (γ : Fin 9 → Fin 9) : Grid := fun r c => g r (γ c)

/-- Total `Fin 9` constructor (indices stay in range in all uses). -/
def fin9 (n : Nat) : Fin 9 := ⟨n % 9, Nat.mod_lt _ (by norm_num)⟩

/-- Step 1 of `createSolvedGrid`: re-order the three rows of band `b` by
the shuffled pattern `p` (`grid[3b+i] = tempRows[p[i]]`). -/
def bandRowPerm (b : Nat) (p : List Nat) : Fin 9 → Fin 9 :=
  fun r => if r.val / 3 = b then fin9 (3 * b + p.getD (r.val % 3) 0) else r

/-- Step 2: re-order the three columns of stack `s` by `p`. -/
def stackColPerm (s : Nat) (p : List Nat) : Fin 9 → Fin 9 :=
  fun c => if c.val / 3 = s then fin9 (3 * s + p.getD (c.val % 3) 0) else c

/-- Step 3: re-order the three row bands by `p`
(`tempBoxes` gathers band `p[i]` into band `i`). -/
def bandOrderPerm (p : List Nat) : Fin 9 → Fin 9 :=
  fun r => fin9 (3 * p.getD (r.val / 3) 0 + r.val % 3)

/-- Step 4: re-order the three column stacks by `p`. -/
def stackOrderPerm (p : List Nat) : Fin 9 → Fin 9 :=
  fun c => fin9 (3 * p.getD (c.val / 3) 0 + c.val % 3)

/-- `createSolvedGrid(prng)`: the base pattern with seeded
validity-preserving permutations applied — rows within each of the three
bands, columns within each of the three stacks, then the band order, then
the stack order.  Threads the PRNG state in the call order of the code. -/
def createSolvedGrid (s : Nat) : Grid × Nat :=
  let d1 := CorePrng.shuffle ([0, 1, 2] : List Nat) s
  let g1 := mapRows baseGrid (bandRowPerm 0 d1.1)
  let d2 := CorePrng.shuffle ([0, 1, 2] : List Nat) d1.2
  let g2 := mapRows g1 (bandRowPerm 1 d2.1)
  let d3 := CorePrng.shuffle ([0, 1, 2] : List Nat) d2.2
  let g3 := mapRows g2 (bandRowPerm 2 d3.1)
  let d4 := CorePrng.shuffle ([0, 1, 2] : List Nat) d3.2
  let g4 := mapCols g3 (stackColPerm 0 d4.1)
  let d5 := CorePrng.shuffle ([0, 1, 2] : List Nat) d4.2
  let g5 := mapCols g4 (stackColPerm 1 d5.1)
  let d6 := CorePrng.shuffle ([0, 1, 2] : List Nat) d5.2
  let g6 := mapCols g5 (stackColPerm 2 d6.1)
  let d7 := CorePrng.shuffle ([0, 1, 2] : List Nat) d6.2
  let g7 := mapRows g6 (bandOrderPerm d7.1)
  let d8 := CorePrng.shuffle ([0, 1, 2] : List Nat) d7.2
  let g8 := mapCols g7 (stackOrderPerm d8.1)
  (g8, d8.2)

inductive Difficulty
  | easy
  | medium
  | hard

/-- `DIFFICULTY_PARAMS`: clue-count bands per difficulty tier. -/
def minClues : Difficulty → Nat
  | Difficulty.easy => 36
  | Difficulty.medium => 30
  | Difficulty.hard => 24

def maxClues : Difficulty → Nat
  | Difficulty.easy => 40
  | Difficulty.medium => 35
  | Difficulty.hard => 29

/-- All 81 cell positions, row-major. -/
def positions : List (Fin 9 × Fin 9) :=
  (List.finRange 9).flatMap (fun r => (List.finRange 9).map (fun c => (r, c)))

/-- The removal loop of `removeClues`: visit the shuffled positions,
stop once the removal budget is met; tentatively clear each cell, keep
the removal only if the puzzle still has exactly one solution according
to `countSolutions(puzzle, 2)`, otherwise restore the saved value. -/
def removeLoop (cellsToRemove : Nat) : Grid → Nat → List (Fin 9 × Fin 9) → Grid
  | g, _, [] => g
  | g, removed, (r, c) :: rest =>
    if cellsToRemove ≤ removed then g
    else
      let saved := g r c
      let g' := setCell g r c 0
      if Sud4.countSolutions g' 2 = 1 then
        removeLoop cellsToRemove g' (removed + 1) rest
      else
        removeLoop cellsToRemove (setCell g' r c saved) removed rest

/-- `removeClues(solution, targetClues, prng)`. -/
def removeClues (solution : Grid) (targetClues : Nat) (s : Nat) : Grid × Nat :=
  let d := CorePrng.shuffle positions s
  (removeLoop (81 - targetClues) solution 0 d.1, d.2)

structure GenerateResult where
  puzzle : Grid
  solution : Grid

/-- `generatePuzzle(options)`. The difficulty-string validation of the
source is always satisfied for the inductive `Difficulty` type.  Thrown
errors are embedded as `Except.error` with the thrown message. -/
def generatePuzzle (difficulty : Difficulty) (seed : Int) :
    Except String GenerateResult :=
  let s0 := CorePrng.initState seed
  let dTarget := CorePrng.nextIntMinMax s0 (minClues difficulty) (maxClues difficulty)
  let dSol := createSolvedGrid dTarget.2
  if (Validator.validateGrid dSol.1).status ≠ ValidationStatus.validComplete then
    Except.error "Failed to generate valid solution"
  else
    let dPuz := removeClues dSol.1 dTarget.1 dSol.2
    if (Validator.validateGrid dPuz.1).status = ValidationStatus.invalid then
      Except.error "Generated puzzle is invalid"
    else if (Solver.solveGrid dPuz.1).solved = false then
      Except.error "Generated puzzle is not solvable"
    else
      Except.ok { puzzle := dPuz.1, solution := dSol.1 }

end Generator

/-! ## Generator validity and claim C3 -/

namespace Generator

/-- A grid fit to serve as a generated solution: rule-respecting,
complete, with in-range cell values. -/
def validG (g : Grid) : Prop := noDups g ∧ complete g ∧ inRange g

theorem perm012_cases {p : List Nat} (h : p.Perm [0, 1, 2]) :
    p = [0, 1, 2] ∨ p = [0, 2, 1] ∨ p = [1, 0, 2] ∨
    p = [1, 2, 0] ∨ p = [2, 0, 1] ∨ p = [2, 1, 0] := by
  have hlen : p.length = 3 := by rw [h.length_eq]; rfl
  obtain ⟨a, b, c, rfl⟩ : ∃ a b c, p = [a, b, c] := by
    match p, hlen with
    | [a, b, c], _ => exact ⟨a, b, c, rfl⟩
  have hnd : ([a, b, c] : List Nat).Nodup := h.nodup_iff.mpr (by decide)
  have ha : a ∈ ([0, 1, 2] : List Nat) := h.subset (by simp)
  have hb : b ∈ ([0, 1, 2] : List Nat) := h.subset (by simp)
  have hc : c ∈ ([0, 1, 2] : List Nat) := h.subset (by simp)
  simp only [List.mem_cons, List.not_mem_nil, or_false] at ha hb hc
  simp only [List.nodup_cons, List.mem_cons, List.not_mem_nil, or_false,
    not_or, List.nodup_nil, and_true] at hnd
  rcases ha with rfl | rfl | rfl <;> rcases hb with rfl | rfl | rfl <;>
    rcases hc with rfl | rfl | rfl <;> simp_all

/-- Row re-indexing by an injective, band-compatible map preserves
solution-grid validity. -/
theorem validG_mapRows {g : Grid} {ρ : Fin 9 → Fin 9} (hg : validG g)
    (hinj : ∀ r₁ r₂ : Fin 9, ρ r₁ = ρ r₂ → r₁ = r₂)
    (hband : ∀ r₁ r₂ : Fin 9, r₁.val / 3 = r₂.val / 3 →
      (ρ r₁).val / 3 = (ρ r₂).val / 3) :
    validG (mapRows g ρ) := by
  obtain ⟨⟨hrow, hcol, hbox⟩, hcomp, hir⟩ := hg
  refine ⟨⟨?_, ?_, ?_⟩, fun r c => hcomp (ρ r) c, fun r c => hir (ρ r) c⟩
  · intro r c₁ c₂ hne h0
    exact hrow (ρ r) c₁ c₂ hne h0
  · intro r₁ r₂ c hne h0
    exact hcol (ρ r₁) (ρ r₂) c (fun he => hne (hinj r₁ r₂ he)) h0
  · intro r₁ c₁ r₂ c₂ hne hbx h0
    obtain ⟨hr3, hc3⟩ := sameBox_iff.mp hbx
    refine hbox (ρ r₁) c₁ (ρ r₂) c₂ ?_ (sameBox_iff.mpr ⟨hband r₁ r₂ hr3, hc3⟩) h0
    intro hpe
    rw [Prod.mk.injEq] at hpe
    exact hne (by rw [Prod.mk.injEq]; exact ⟨hinj r₁ r₂ hpe.1, hpe.2⟩)

/-- Column re-indexing by an injective, band-compatible map preserves
solution-grid validity. -/
theorem validG_mapCols {g : Grid} {γ : Fin 9 → Fin 9} (hg : validG g)
    (hinj : ∀ c₁ c₂ : Fin 9, γ c₁ = γ c₂ → c₁ = c₂)
    (hband : ∀ c₁ c₂ : Fin 9, c₁.val / 3 = c₂.val / 3 →
      (γ c₁).val / 3 = (γ c₂).val / 3) :
    validG (mapCols g γ) := by
  obtain ⟨⟨hrow, hcol, hbox⟩, hcomp, hir⟩ := hg
  refine ⟨⟨?_, ?_, ?_⟩, fun r c => hcomp r (γ c), fun r c => hir r (γ c)⟩
  · intro r c₁ c₂ hne h0
    exact hrow r (γ c₁) (γ c₂) (fun he => hne (hinj c₁ c₂ he)) h0
  · intro r₁ r₂ c hne h0
    exact hcol r₁ r₂ (γ c) hne h0
  · intro r₁ c₁ r₂ c₂ hne hbx h0
    obtain ⟨hr3, hc3⟩ := sameBox_iff.mp hbx
    refine hbox r₁ (γ c₁) r₂ (γ c₂) ?_ (sameBox_iff.mpr ⟨hr3, hband c₁ c₂ hc3⟩) h0
    intro hpe
    rw [Prod.mk.injEq] at hpe
    exact hne (by rw [Prod.mk.injEq]; exact ⟨hpe.1, hinj c₁ c₂ hpe.2⟩)

/-- In-band row reordering by a shuffled `[0,1,2]` pattern is injective
and keeps each row in its band. -/
theorem bandRowPerm_props {p : List Nat} (hp : p.Perm [0, 1, 2]) {b : Nat}
    (hb : b < 3) :
    (∀ r₁ r₂ : Fin 9, bandRowPerm b p r₁ = bandRowPerm b p r₂ → r₁ = r₂) ∧
    (∀ r₁ r₂ : Fin 9, r₁.val / 3 = r₂.val / 3 →
      (bandRowPerm b p r₁).val / 3 = (bandRowPerm b p r₂).val / 3) := by
  rcases perm012_cases hp with rfl | rfl | rfl | rfl | rfl | rfl <;>
    interval_cases b <;> exact ⟨by decide, by decide⟩

/-- Band reordering by a shuffled `[0,1,2]` pattern is injective and
band-compatible. -/
theorem bandOrderPerm_props {p : List Nat} (hp : p.Perm [0, 1, 2]) :
    (∀ r₁ r₂ : Fin 9, bandOrderPerm p r₁ = bandOrderPerm p r₂ → r₁ = r₂) ∧
    (∀ r₁ r₂ : Fin 9, r₁.val / 3 = r₂.val / 3 →
      (bandOrderPerm p r₁).val / 3 = (bandOrderPerm p r₂).val / 3) := by
  rcases perm012_cases hp with rfl | rfl | rfl | rfl | rfl | rfl <;>
    exact ⟨by decide, by decide⟩

theorem stackColPerm_eq (s : Nat) (p : List Nat) :
    stackColPerm s p = bandRowPerm s p := rfl

theorem stackOrderPerm_eq (p : List Nat) :
    stackOrderPerm p = bandOrderPerm p := rfl

theorem validG_baseGrid : validG baseGrid :=
  ⟨by decide, by decide, by decide⟩

/-- One in-band row-shuffle stage preserves validity. -/
theorem validG_bandRowStage {g : Grid} (hg : validG g) {b : Nat} (hb : b < 3)
    {p : List Nat} (hp : p.Perm [0, 1, 2]) :
    validG (mapRows g (bandRowPerm b p)) :=
  validG_mapRows hg (bandRowPerm_props hp hb).1 (bandRowPerm_props hp hb).2

/-- One in-stack column-shuffle stage preserves validity. -/
theorem validG_stackColStage {g : Grid} (hg : validG g) {b : Nat} (hb : b < 3)
    {p : List Nat} (hp : p.Perm [0, 1, 2]) :
    validG (mapCols g (stackColPerm b p)) := by
  rw [stackColPerm_eq]
  exact validG_mapCols hg (bandRowPerm_props hp hb).1 (bandRowPerm_props hp hb).2

/-- The band-order stage preserves validity. -/
theorem validG_bandOrderStage {g : Grid} (hg : validG g)
    {p : List Nat} (hp : p.Perm [0, 1, 2]) :
    validG (mapRows g (bandOrderPerm p)) :=
  validG_mapRows hg (bandOrderPerm_props hp).1 (bandOrderPerm_props hp).2

/-- The stack-order stage preserves validity. -/
theorem validG_stackOrderStage {g : Grid} (hg : validG g)
    {p : List Nat} (hp : p.Perm [0, 1, 2]) :
    validG (mapCols g (stackOrderPerm p)) := by
  rw [stackOrderPerm_eq]
  exact validG_mapCols hg (bandOrderPerm_props hp).1 (bandOrderPerm_props hp).2

/-- Whatever the PRNG state, `createSolvedGrid` produces a rule-respecting,
complete grid of digits `1`–`9`. -/
theorem createSolvedGrid_valid (s : Nat) : validG (createSolvedGrid s).1 := by
  unfold createSolvedGrid
  dsimp only
  exact validG_stackOrderStage
    (validG_bandOrderStage
      (validG_stackColStage
        (validG_stackColStage
          (validG_stackColStage
            (validG_bandRowStage
              (validG_bandRowStage
                (validG_bandRowStage validG_baseGrid (by norm_num)
                  (CorePrng.shuffle3_perm _))
                (by norm_num) (CorePrng.shuffle3_perm _))
              (by norm_num) (CorePrng.shuffle3_perm _))
            (by norm_num) (CorePrng.shuffle3_perm _))
          (by norm_num) (CorePrng.shuffle3_perm _))
        (by norm_num) (CorePrng.shuffle3_perm _))
      (CorePrng.shuffle3_perm _))
    (CorePrng.shuffle3_perm _)

end Generator

/-- Re-writing the just-cleared cell with its saved value restores the
grid (`puzzle[row][col] = savedValue`). -/
theorem setCell_restore (g : Grid) (r c : Fin 9) :
    setCell (setCell g r c 0) r c (g r c) = g := by
  funext r' c'
  by_cases hp : r' = r ∧ c' = c
  · rw [setCell_at hp.1 hp.2, hp.1, hp.2]
  · rw [setCell_other _ hp, setCell_other _ hp]

/-- Clearing a cell preserves agreement with a reference grid on the
remaining non-empty cells. -/
theorem extendsGrid_clear {g gsol : Grid} (hext : extendsGrid g gsol)
    (r c : Fin 9) : extendsGrid (setCell g r c 0) gsol := by
  intro r' c' h0
  by_cases hp : r' = r ∧ c' = c
  · rw [setCell_at hp.1 hp.2] at h0
    exact absurd rfl h0
  · rw [setCell_other _ hp] at h0 ⊢
    exact hext r' c' h0

/-- A grid whose non-empty cells agree with a rule-respecting grid is
itself rule-respecting. -/
theorem noDups_of_extends {g gsol : Grid} (hext : extendsGrid g gsol)
    (hnd : noDups gsol) : noDups g := by
  obtain ⟨hrow, hcol, hbox⟩ := hnd
  refine ⟨?_, ?_, ?_⟩
  · intro r c₁ c₂ hne h0 heq
    have h0' : g r c₂ ≠ 0 := by rw [← heq]; exact h0
    have e₁ := hext r c₁ h0
    have e₂ := hext r c₂ h0'
    exact hrow r c₁ c₂ hne (by rw [e₁]; exact h0) (by rw [e₁, e₂, heq])
  · intro r₁ r₂ c hne h0 heq
    have h0' : g r₂ c ≠ 0 := by rw [← heq]; exact h0
    have e₁ := hext r₁ c h0
    have e₂ := hext r₂ c h0'
    exact hcol r₁ r₂ c hne (by rw [e₁]; exact h0) (by rw [e₁, e₂, heq])
  · intro r₁ c₁ r₂ c₂ hne hbx h0 heq
    have h0' : g r₂ c₂ ≠ 0 := by rw [← heq]; exact h0
    have e₁ := hext r₁ c₁ h0
    have e₂ := hext r₂ c₂ h0'
    exact hbox r₁ c₁ r₂ c₂ hne hbx (by rw [e₁]; exact h0) (by rw [e₁, e₂, heq])

/-- A grid whose non-empty cells agree with an in-range grid is in range. -/
theorem inRange_of_extends {g gsol : Grid} (hext : extendsGrid g gsol)
    (hir : inRange gsol) : inRange g := by
  intro r c
  by_cases h0 : g r c = 0
  · rw [h0]
    omega
  · rw [← hext r c h0]
    exact hir r c

/-- The digit of a reference solution is always an admissible placement
(full-unit scan) at an empty cell of a grid agreeing with it. -/
theorem placeFreeAll_of_solution {g gsol : Grid} {r c : Fin 9}
    (hext : extendsGrid g gsol) (hnd : noDups gsol) (hc : complete gsol)
    (h0 : g r c = 0) : placeFreeAll g r c (gsol r c) := by
  have hv0 : gsol r c ≠ 0 := hc r c
  refine placeFree.toAll hv0 h0 ⟨?_, ?_, ?_⟩
  · intro c' hne heq
    have h0' : g r c' ≠ 0 := by rw [heq]; exact hv0
    have e := hext r c' h0'
    exact hnd.1 r c' c hne (by rw [e]; exact h0') (by rw [e, heq])
  · intro r' hne heq
    have h0' : g r' c ≠ 0 := by rw [heq]; exact hv0
    have e := hext r' c h0'
    exact hnd.2.1 r' r c hne (by rw [e]; exact h0') (by rw [e, heq])
  · intro r' c' hbx hne heq
    have h0' : g r' c' ≠ 0 := by rw [heq]; exact hv0
    have e := hext r' c' h0'
    have hnep : (r', c') ≠ (r, c) := by
      intro hpe
      rw [Prod.mk.injEq] at hpe
      exact hne hpe
    exact hnd.2.2 r' c' r c hnep hbx (by rw [e]; exact h0') (by rw [e, heq])

/-- If the whole candidate loop fails, every admissible candidate's
recursive call failed. -/
theorem Solver.tryCands_none {rec : Grid → Option Grid} {g : Grid} {r c : Fin 9} :
    ∀ (vs : List Nat), Solver.tryCands rec g r c vs = none →
      ∀ v ∈ vs, Solver.isValidPlacement g r c v = true →
        rec (setCell g r c v) = none := by
  intro vs
  induction vs with
  | nil =>
    intro _ v hv
    exact absurd hv (List.not_mem_nil v)
  | cons w ws ih =>
    intro h v hv hchk
    unfold Solver.tryCands at h
    rcases List.mem_cons.mp hv with rfl | hv'
    · rw [if_pos hchk] at h
      cases hrec : rec (setCell g r c v) with
      | some g' =>
        rw [hrec] at h
        exact absurd h (by simp)
      | none => rfl
    · by_cases hchkw : Solver.isValidPlacement g r c w
      · rw [if_pos hchkw] at h
        cases hrec : rec (setCell g r c w) with
        | some g' =>
          rw [hrec] at h
          exact absurd h (by simp)
        | none =>
          rw [hrec] at h
          exact ih h v hv' hchk
      · rw [if_neg hchkw] at h
        exact ih h v hv' hchk

theorem Solver.solveBacktracking_succ (fuel : Nat) (g : Grid) :
    Solver.solveBacktracking (fuel + 1) g =
      match Solver.findNextEmpty g with
      | none => some g
      | some (r, c) =>
        Solver.tryCands (Solver.solveBacktracking fuel) g r c
          [1, 2, 3, 4, 5, 6, 7, 8, 9] := rfl

/-- Search completeness: a grid whose non-empty cells agree with some
complete rule-respecting digit grid is solved by the backtracking search
(given fuel above the number of empty cells). -/
theorem Solver.solveBacktracking_completeness :
    ∀ (fuel : Nat) (g gsol : Grid), numEmpty g < fuel → extendsGrid g gsol →
      complete gsol → noDups gsol → inRange gsol →
      ∃ g', Solver.solveBacktracking fuel g = some g' := by
  intro fuel
  induction fuel with
  | zero =>
    intro g gsol hfuel
    omega
  | succ fuel ih =>
    intro g gsol hfuel hext hc hnd hir
    rw [Solver.solveBacktracking_succ]
    cases hfind : Solver.findNextEmpty g with
    | none => exact ⟨g, rfl⟩
    | some rc =>
      obtain ⟨r, c⟩ := rc
      have h0 : g r c = 0 := Solver.findNextEmpty_some_empty hfind
      have hv0 : gsol r c ≠ 0 := hc r c
      have hv9 : gsol r c ≤ 9 := hir r c
      have hvmem : gsol r c ∈ ([1, 2, 3, 4, 5, 6, 7, 8, 9] : List Nat) := by
        simp only [List.mem_cons, List.not_mem_nil, or_false]
        omega
      have hchk : Solver.isValidPlacement g r c (gsol r c) = true :=
        (Solver.isValidPlacement_true_iff g r c (gsol r c)).mpr
          (placeFreeAll_of_solution hext hnd hc h0)
      have hext' : extendsGrid (setCell g r c (gsol r c)) gsol := by
        intro r' c' h0'
        by_cases hp : r' = r ∧ c' = c
        · rw [setCell_at hp.1 hp.2, hp.1, hp.2]
        · rw [setCell_other _ hp] at h0' ⊢
          exact hext r' c' h0'
      have hnum : numEmpty (setCell g r c (gsol r c)) < fuel := by
        have := numEmpty_setCell h0 hv0
        omega
      obtain ⟨g', hg'⟩ := ih (setCell g r c (gsol r c)) gsol hnum hext' hc hnd hir
      cases hres : Solver.tryCands (Solver.solveBacktracking fuel) g r c
          [1, 2, 3, 4, 5, 6, 7, 8, 9] with
      | some g'' => exact ⟨g'', hres⟩
      | none =>
        exfalso
        have hnone := Solver.tryCands_none _ hres (gsol r c) hvmem hchk
        rw [hg'] at hnone
        exact absurd hnone (by simp)

/-- `solveGrid` reports success on any grid that agrees with a complete
rule-respecting digit grid on its non-empty cells. -/
theorem Solver.solveGrid_solved_of_extension {g gsol : Grid}
    (hext : extendsGrid g gsol) (hnd : noDups gsol) (hc : complete gsol)
    (hir : inRange gsol) : (Solver.solveGrid g).solved = true := by
  have hndg : noDups g := noDups_of_extends hext hnd
  have hfuel : numEmpty g < 82 := by
    have := numEmpty_le g
    omega
  obtain ⟨w, hw⟩ :=
    Solver.solveBacktracking_completeness 82 g gsol hfuel hext hc hnd hir
  have hnval : ¬ (Validator.validateGrid g).status = ValidationStatus.invalid := by
    rw [Validator.status_invalid_iff]
    exact not_not_intro hndg
  have hvc : (Validator.validateGrid w).status = ValidationStatus.validComplete :=
    (Validator.status_validComplete_iff w).mpr
      ⟨Solver.solveBacktracking_noDups 82 g w hndg hw,
       Solver.solveBacktracking_complete 82 g w hw⟩
  unfold Solver.solveGrid
  rw [if_neg hnval, hw]
  show (if (Validator.validateGrid w).status ≠ ValidationStatus.validComplete then
      ({ solved := false, grid := none, reason := some "unsolvable" } : SolveResult)
    else { solved := true, grid := some w, reason := none }).solved = true
  rw [if_neg (not_not_intro hvc)]

namespace Generator

theorem removeLoop_nil (n : Nat) (g : Grid) (removed : Nat) :
    removeLoop n g removed [] = g := rfl

theorem removeLoop_cons (n : Nat) (g : Grid) (removed : Nat) (r c : Fin 9)
    (rest : List (Fin 9 × Fin 9)) :
    removeLoop n g removed ((r, c) :: rest) =
      if n ≤ removed then g
      else if Sud4.countSolutions (setCell g r c 0) 2 = 1 then
        removeLoop n (setCell g r c 0) (removed + 1) rest
      else removeLoop n (setCell (setCell g r c 0) r c (g r c)) removed rest := rfl

/-- The removal loop's invariant: the working puzzle always agrees with
the solution on its remaining clues, and — each removal being accepted
only after the `countSolutions(puzzle, 2) === 1` re-check — always has
exactly one bounded-counted solution. -/
theorem removeLoop_inv (gsol : Grid) (n : Nat) :
    ∀ (l : List (Fin 9 × Fin 9)) (g : Grid) (removed : Nat),
      extendsGrid g gsol → Sud4.countSolutions g 2 = 1 →
      extendsGrid (removeLoop n g removed l) gsol ∧
      Sud4.countSolutions (removeLoop n g removed l) 2 = 1 := by
  intro l
  induction l with
  | nil =>
    intro g removed hext hcnt
    rw [removeLoop_nil]
    exact ⟨hext, hcnt⟩
  | cons rc rest ih =>
    intro g removed hext hcnt
    obtain ⟨r, c⟩ := rc
    rw [removeLoop_cons]
    by_cases hcap : n ≤ removed
    · rw [if_pos hcap]
      exact ⟨hext, hcnt⟩
    · rw [if_neg hcap]
      by_cases huniq : Sud4.countSolutions (setCell g r c 0) 2 = 1
      · rw [if_pos huniq]
        exact ih _ _ (extendsGrid_clear hext r c) huniq
      · rw [if_neg huniq, setCell_restore]
        exact ih _ _ hext hcnt

/-- `removeClues` keeps the solution's clues where it does not clear, and
returns a puzzle whose bounded solution count is exactly `1`. -/
theorem removeClues_eq (sol : Grid) (t s : Nat) :
    removeClues sol t s =
      (removeLoop (81 - t) sol 0 (CorePrng.shuffle positions s).1,
       (CorePrng.shuffle positions s).2) := rfl

/-- `removeClues` keeps the solution's clues where it does not clear, and
returns a puzzle whose bounded solution count is exactly `1`. -/
theorem removeClues_good {sol : Grid} (hc : complete sol)
    (t s : Nat) :
    extendsGrid (removeClues sol t s).1 sol ∧
    Sud4.countSolutions (removeClues sol t s).1 2 = 1 := by
  rw [removeClues_eq]
  generalize (CorePrng.shuffle positions s).1 = l
  exact removeLoop_inv sol (81 - t) l sol 0
    (extendsGrid_refl sol) (Sud4.countSolutions_of_complete hc 2)

theorem generatePuzzle_eq (d : Difficulty) (seed : Int) :
    generatePuzzle d seed =
      (if (Validator.validateGrid
            (createSolvedGrid
              (CorePrng.nextIntMinMax (CorePrng.initState seed)
                (minClues d) (maxClues d)).2).1).status ≠
          ValidationStatus.validComplete then
        Except.error "Failed to generate valid solution"
      else if (Validator.validateGrid
            (removeClues
              (createSolvedGrid
                (CorePrng.nextIntMinMax (CorePrng.initState seed)
                  (minClues d) (maxClues d)).2).1
              (CorePrng.nextIntMinMax (CorePrng.initState seed)
                (minClues d) (maxClues d)).1
              (createSolvedGrid
                (CorePrng.nextIntMinMax (CorePrng.initState seed)
                  (minClues d) (maxClues d)).2).2).1).status =
          ValidationStatus.invalid then
        Except.error "Generated puzzle is invalid"
      else if (Solver.solveGrid
            (removeClues
              (createSolvedGrid
                (CorePrng.nextIntMinMax (CorePrng.initState seed)
                  (minClues d) (maxClues d)).2).1
              (CorePrng.nextIntMinMax (CorePrng.initState seed)
                (minClues d) (maxClues d)).1
              (createSolvedGrid
                (CorePrng.nextIntMinMax (CorePrng.initState seed)
                  (minClues d) (maxClues d)).2).2).1).solved = false then
        Except.error "Generated puzzle is not solvable"
      else
        Except.ok
          { puzzle := (removeClues
              (createSolvedGrid
                (CorePrng.nextIntMinMax (CorePrng.initState seed)
                  (minClues d) (maxClues d)).2).1
              (CorePrng.nextIntMinMax (CorePrng.initState seed)
                (minClues d) (maxClues d)).1
              (createSolvedGrid
                (CorePrng.nextIntMinMax (CorePrng.initState seed)
                  (minClues d) (maxClues d)).2).2).1,
            solution := (createSolvedGrid
              (CorePrng.nextIntMinMax (CorePrng.initState seed)
                (minClues d) (maxClues d)).2).1 }) := rfl

end Generator

/-- C3 amended: for the SUD-5 generator of `src/core/generator.ts` the
claim holds in full — for every difficulty and every integer seed,
`generatePuzzle` returns (never throws), and the returned puzzle is
solvable (`solveGrid(puzzle).solved == true`) and unique
(`countSolutions(puzzle, 2) == 1`), because every removal is re-checked
with `countSolutions(puzzle, 2) === 1`.  The alternate `generatePuzzle`
of `src/commands/generate.ts`, also cited by the claim, removes a fixed
number of cells with no such re-check and violates the uniqueness clause
(see the counterexample). -/
theorem claim_C3_amended
    (d : Generator.Difficulty) (seed : Int) :
    ∃ res : Generator.GenerateResult,
      Generator.generatePuzzle d seed = Except.ok res ∧
      (Solver.solveGrid res.puzzle).solved = true ∧
      Sud4.countSolutions res.puzzle 2 = 1 := by
  rw [Generator.generatePuzzle_eq]
  set dT := CorePrng.nextIntMinMax (CorePrng.initState seed)
    (Generator.minClues d) (Generator.maxClues d) with hdT
  clear_value dT
  have hvalid := Generator.createSolvedGrid_valid dT.2
  set dSol := Generator.createSolvedGrid dT.2 with hdSol
  clear_value dSol
  obtain ⟨hnd, hc, hir⟩ := hvalid
  have hgood := Generator.removeClues_good hc dT.1 dSol.2
  set dPuz := Generator.removeClues dSol.1 dT.1 dSol.2 with hdPuz
  clear_value dPuz
  obtain ⟨hext, hcnt⟩ := hgood
  have hst : (Validator.validateGrid dSol.1).status = ValidationStatus.validComplete :=
    (Validator.status_validComplete_iff _).mpr ⟨hnd, hc⟩
  rw [if_neg (not_not_intro hst)]
  have hndp : noDups dPuz.1 := noDups_of_extends hext hnd
  have hninv : ¬ (Validator.validateGrid dPuz.1).status = ValidationStatus.invalid := by
    rw [Validator.status_invalid_iff]
    exact not_not_intro hndp
  rw [if_neg hninv]
  have hsolved : (Solver.solveGrid dPuz.1).solved = true :=
    Solver.solveGrid_solved_of_extension hext hnd hc hir
  have hnfalse : ¬ (Solver.solveGrid dPuz.1).solved = false := by
    rw [hsolved]
    simp
  rw [if_neg hnfalse]
  exact ⟨⟨dPuz.1, dSol.1⟩, rfl, hsolved, hcnt⟩

/-! ## Alternate generator (middle of `src/commands/generate.ts`, C3) -/


namespace AltGen

/-- `BASE_SOLUTION` of the alternate generator: its fixed base template. -/
def BASE_SOLUTION : Grid := ofRows [
  [5, 3, 4, 6, 7, 8, 9, 1, 2],
  [6, 7, 2, 1, 9, 5, 3, 4, 8],
  [1, 9, 8, 3, 4, 2, 5, 6, 7],
  [8, 5, 9, 7, 6, 1, 4, 2, 3],
  [4, 2, 6, 8, 5, 3, 7, 9, 1],
  [7, 1, 3, 9, 2, 4, 8, 5, 6],
  [9, 6, 1, 5, 3, 7, 2, 8, 4],
  [2, 8, 7, 4, 1, 9, 6, 3, 5],
  [3, 4, 5, 2, 8, 6, 1, 7, 9]]

/-- One draw of the part_001 PRNG this module imports: `nextInt(n)`
returns the drawn value and the advanced state. -/
def nextIntDraw (s n : Nat) : Nat × Nat :=
  (PrngJs.nextIntVal s n, PrngJs.nextState s)

/-- The loop of `shuffleInPlace`: Fisher–Yates, `i` from the last index
down to `1`, swapping index `i` with `nextInt(i + 1)`. -/
def shuffleAux {α : Type} : List α → Nat → Nat → List α × Nat
  | a, s, 0 => (a, s)
  | a, s, k + 1 =>
    let d := nextIntDraw s (k + 2)
    shuffleAux (CorePrng.listSwap a (k + 1) d.1) d.2 k

/-- `shuffleInPlace(arr, prng)` (returns the permuted list and the
advanced PRNG state). -/
def shuffleInPlace {α : Type} (a : List α) (s : Nat) : List α × Nat :=
  shuffleAux a s (a.length - 1)

/-- `permuteDigits(grid, prng)`: shuffle the digits `1..9` and relabel
every cell through the resulting mapping (`mapping.get(v) ?? v`: `0` and
out-of-range values are left unchanged). -/
def permuteDigits (g : Grid) (s : Nat) : Grid × Nat :=
  let d := shuffleInPlace ([1, 2, 3, 4, 5, 6, 7, 8, 9] : List Nat) s
  ((fun r c => if g r c = 0 then 0 else d.1.getD (g r c - 1) (g r c)), d.2)

/-- The band loop shared by `permuteRows`/`permuteCols`: for each band (or
stack) in the shuffled order, shuffle that band's three unit indices and
append them to the order list. -/
def orderLoop : List Nat → Nat → List Nat × Nat
  | [], s => ([], s)
  | band :: rest, s =>
    let d := shuffleInPlace [band * 3, band * 3 + 1, band * 3 + 2] s
    let r := orderLoop rest d.2
    (d.1 ++ r.1, r.2)

/-- `permuteRows(grid, prng)`: shuffle the band order, then the rows
within each band (in shuffled band order); row `r` of the result is row
`rowOrder[r]` of the input. -/
def permuteRows (g : Grid) (s : Nat) : Grid × Nat :=
  let d0 := shuffleInPlace ([0, 1, 2] : List Nat) s
  let ro := orderLoop d0.1 d0.2
  ((fun r c => g (Generator.fin9 (ro.1.getD r.val 0)) c), ro.2)

/-- `permuteCols(grid, prng)`: the column counterpart of `permuteRows`. -/
def permuteCols (g : Grid) (s : Nat) : Grid × Nat :=
  let d0 := shuffleInPlace ([0, 1, 2] : List Nat) s
  let co := orderLoop d0.1 d0.2
  ((fun r c => g r (Generator.fin9 (co.1.getD c.val 0))), co.2)

/-- `makeSolvedGrid(seed)`: a fresh PRNG from the seed, then digit, row
and column permutations of the base template, in that order. -/
def makeSolvedGrid (seed : Int) : Grid :=
  let s0 := PrngJs.initState seed
  let d1 := permuteDigits BASE_SOLUTION s0
  let d2 := permuteRows d1.1 d1.2
  let d3 := permuteCols d2.1 d2.2
  d3.1

/-- `removalsForDifficulty`: the fixed number of cells this generator
blindly clears. -/
def removalsForDifficulty : Generator.Difficulty → Nat
  | Generator.Difficulty.easy => 36
  | Generator.Difficulty.medium => 46
  | Generator.Difficulty.hard => 54

/-- The removal loop: clear cell `idx / 9, idx % 9` for each listed
position (no re-check of any kind). -/
def clearLoop : Grid → List Nat → Grid
  | g, [] => g
  | g, idx :: rest =>
    clearLoop (setCell g (Generator.fin9 (idx / 9)) (Generator.fin9 (idx % 9)) 0) rest

/-- `generatePuzzle(opts)` of `src/commands/generate.ts`: a fresh PRNG
from the seed, the solved grid from `makeSolvedGrid(seed)` (its own fresh
PRNG), a shuffle of the 81 positions, then `removals` cells cleared
blindly; afterwards only the two safety checks (not-invalid, solvable) —
there is no `countSolutions` uniqueness check.  Thrown errors are embedded
as `Except.error`. -/
def generatePuzzle (difficulty : Generator.Difficulty) (seed : Int) :
    Except String Generator.GenerateResult :=
  let s0 := PrngJs.initState seed
  let solution := makeSolvedGrid seed
  let d := shuffleInPlace (List.range 81) s0
  let puzzle := clearLoop solution (d.1.take (removalsForDifficulty difficulty))
  if (Validator.validateGrid puzzle).status = ValidationStatus.invalid then
    Except.error "Generated puzzle is invalid (unexpected)"
  else if (Solver.solveGrid puzzle).solved = false then
    Except.error "Generated puzzle is not solvable (unexpected)"
  else
    Except.ok { puzzle := puzzle, solution := solution }

end AltGen

/-- The `easy`, seed `2` puzzle of the alternate generator, as traced
below (36 blind removals from its solved grid). -/
def altPuzzle : Grid := ofRows [
  [3, 0, 0, 6, 0, 0, 0, 5, 9],
  [0, 5, 0, 0, 0, 9, 6, 8, 0],
  [0, 6, 0, 8, 5, 0, 0, 7, 4],
  [6, 8, 2, 0, 4, 0, 5, 3, 7],
  [4, 0, 5, 7, 2, 0, 0, 6, 0],
  [0, 1, 3, 5, 6, 8, 0, 0, 2],
  [9, 3, 1, 4, 8, 0, 0, 2, 0],
  [5, 0, 0, 0, 0, 0, 8, 0, 0],
  [0, 4, 0, 2, 3, 0, 9, 1, 5]]

/-- The solved grid the alternate generator builds for seed `2`. -/
def altSolution : Grid := ofRows [
  [3, 7, 8, 6, 1, 4, 2, 5, 9],
  [2, 5, 4, 3, 7, 9, 6, 8, 1],
  [1, 6, 9, 8, 5, 2, 3, 7, 4],
  [6, 8, 2, 9, 4, 1, 5, 3, 7],
  [4, 9, 5, 7, 2, 3, 1, 6, 8],
  [7, 1, 3, 5, 6, 8, 4, 9, 2],
  [9, 3, 1, 4, 8, 5, 7, 2, 6],
  [5, 2, 7, 1, 9, 6, 8, 4, 3],
  [8, 4, 6, 2, 3, 7, 9, 1, 5]]

/-- A second completion of `altPuzzle`, differing from `altSolution` in
four cells of rows 7-8. -/
def altSolution2 : Grid := ofRows [
  [3, 7, 8, 6, 1, 4, 2, 5, 9],
  [2, 5, 4, 3, 7, 9, 6, 8, 1],
  [1, 6, 9, 8, 5, 2, 3, 7, 4],
  [6, 8, 2, 9, 4, 1, 5, 3, 7],
  [4, 9, 5, 7, 2, 3, 1, 6, 8],
  [7, 1, 3, 5, 6, 8, 4, 9, 2],
  [9, 3, 1, 4, 8, 5, 7, 2, 6],
  [5, 2, 6, 1, 9, 7, 8, 4, 3],
  [8, 4, 7, 2, 3, 6, 9, 1, 5]]

/-- Trace: `makeSolvedGrid(2)` is `altSolution`, cell by cell. -/
theorem altSolution_eval :
    ∀ r c : Fin 9, AltGen.makeSolvedGrid 2 r c = altSolution r c := by decide

/-- Trace: the alternate generator's `easy`, seed `2` puzzle is
`altPuzzle`, cell by cell. -/
theorem altPuzzle_eval :
    ∀ r c : Fin 9,
      AltGen.clearLoop (AltGen.makeSolvedGrid 2)
        ((AltGen.shuffleInPlace (List.range 81) (PrngJs.initState 2)).1.take
          (AltGen.removalsForDifficulty Generator.Difficulty.easy)) r c =
      altPuzzle r c := by decide

/-- View a digit grid as a `Fin 10` assignment table. -/
def toTable (g : Grid) : Fin 9 → Fin 9 → Fin 10 :=
  fun r c => ⟨g r c % 10, Nat.mod_lt _ (by norm_num)⟩

set_option maxRecDepth 16000 in
/-- The generator solution completes `altPuzzle`. -/
theorem altSolution_isSolution : isSolutionOf altPuzzle (toTable altSolution) := by
  decide

set_option maxRecDepth 16000 in
/-- The second table also completes `altPuzzle`. -/
theorem altSolution2_isSolution : isSolutionOf altPuzzle (toTable altSolution2) := by
  decide

theorem AltGen.generatePuzzle_unfold (d : Generator.Difficulty) (seed : Int) :
    AltGen.generatePuzzle d seed =
      (if (Validator.validateGrid (AltGen.clearLoop (AltGen.makeSolvedGrid seed)
            ((AltGen.shuffleInPlace (List.range 81) (PrngJs.initState seed)).1.take
              (AltGen.removalsForDifficulty d)))).status = ValidationStatus.invalid then
        Except.error "Generated puzzle is invalid (unexpected)"
      else if (Solver.solveGrid (AltGen.clearLoop (AltGen.makeSolvedGrid seed)
            ((AltGen.shuffleInPlace (List.range 81) (PrngJs.initState seed)).1.take
              (AltGen.removalsForDifficulty d)))).solved = false then
        Except.error "Generated puzzle is not solvable (unexpected)"
      else
        Except.ok
          { puzzle := AltGen.clearLoop (AltGen.makeSolvedGrid seed)
              ((AltGen.shuffleInPlace (List.range 81) (PrngJs.initState seed)).1.take
                (AltGen.removalsForDifficulty d)),
            solution := AltGen.makeSolvedGrid seed }) := rfl

/-- A grid with two distinct solutions does not have true count `1`. -/
theorem trueCount_ne_one {g : Grid} {a b : Fin 9 → Fin 9 → Fin 10}
    (ha : isSolutionOf g a) (hb : isSolutionOf g b) (hne : a ≠ b) :
    trueCount g ≠ 1 := by
  intro h1
  unfold trueCount at h1
  rw [Finset.card_eq_one] at h1
  obtain ⟨x, hx⟩ := h1
  have haa : a ∈ solSet g := by
    rw [mem_solSet]
    exact ha
  have hbb : b ∈ solSet g := by
    rw [mem_solSet]
    exact hb
  rw [hx, Finset.mem_singleton] at haa hbb
  exact hne (haa.trans hbb.symm)

/-- The two completions differ (at row 7, column 2). -/
theorem altTables_ne : toTable altSolution ≠ toTable altSolution2 := fun heq =>
  absurd (congrFun (congrFun heq 7) 2) (by decide)

/-- The traced puzzle does not count exactly one solution. -/
theorem altPuzzle_not_unique : trueCount altPuzzle ≠ 1 :=
  trueCount_ne_one altSolution_isSolution altSolution2_isSolution altTables_ne

set_option maxRecDepth 16000 in
/-- The puzzle of the trace respects the Sudoku rules. -/
theorem altPuzzle_noDups : noDups altPuzzle := by
  decide

set_option maxRecDepth 16000 in
theorem altPuzzle_inRange : inRange altPuzzle := by
  decide

set_option maxRecDepth 16000 in
theorem altSolution_noDups : noDups altSolution := by
  decide

set_option maxRecDepth 16000 in
theorem altSolution_complete : complete altSolution := by
  decide

set_option maxRecDepth 16000 in
theorem altSolution_inRange : inRange altSolution := by
  decide

set_option maxRecDepth 16000 in
/-- The traced puzzle agrees with the traced solution on its clues. -/
theorem altPuzzle_extends : extendsGrid altPuzzle altSolution := by
  unfold extendsGrid
  decide

/-- C3 counterexample: the `generatePuzzle` of `src/commands/generate.ts`
(also cited by the claim) removes a fixed number of cells with no
uniqueness re-check; at difficulty `easy`, seed `2`, it returns a puzzle
that is solvable but has two distinct solutions, so
`countSolutions(puzzle, 2)` is not `1` and the claimed property fails for
this implementation. -/
theorem claim_C3_counterexample :
    ∃ res : Generator.GenerateResult,
      AltGen.generatePuzzle Generator.Difficulty.easy 2 = Except.ok res ∧
      (Solver.solveGrid res.puzzle).solved = true ∧
      Sud4.countSolutions res.puzzle 2 ≠ 1 := by
  have hpz : AltGen.clearLoop (AltGen.makeSolvedGrid 2)
      ((AltGen.shuffleInPlace (List.range 81) (PrngJs.initState 2)).1.take
        (AltGen.removalsForDifficulty Generator.Difficulty.easy)) = altPuzzle :=
    funext fun r => funext fun c => altPuzzle_eval r c
  have hsl : AltGen.makeSolvedGrid 2 = altSolution :=
    funext fun r => funext fun c => altSolution_eval r c
  have hsolved : (Solver.solveGrid altPuzzle).solved = true :=
    Solver.solveGrid_solved_of_extension altPuzzle_extends
      altSolution_noDups altSolution_complete altSolution_inRange
  have hcnt : Sud4.countSolutions altPuzzle 2 ≠ 1 := by
    have hfuel : numEmpty altPuzzle < 82 := by
      have := numEmpty_le altPuzzle
      omega
    have hall : Sud4.countAll 82 altPuzzle = trueCount altPuzzle :=
      Sud4.countAll_eq_trueCount 82 altPuzzle hfuel altPuzzle_noDups altPuzzle_inRange
    rcases Sud4.countRec_dich 82 2 altPuzzle with h | h
    · unfold Sud4.countSolutions
      rw [h, hall]
      exact altPuzzle_not_unique
    · unfold Sud4.countSolutions
      omega
  rw [AltGen.generatePuzzle_unfold, hpz, hsl]
  have hninv : ¬ (Validator.validateGrid altPuzzle).status = ValidationStatus.invalid := by
    rw [Validator.status_invalid_iff]
    exact not_not_intro altPuzzle_noDups
  rw [if_neg hninv]
  have hnfalse : ¬ ((Solver.solveGrid altPuzzle).solved = false) := by
    rw [hsolved]
    simp
  rw [if_neg hnfalse]
  exact ⟨⟨altPuzzle, altSolution⟩, rfl, hsolved, hcnt⟩
